import Mathlib

set_option maxHeartbeats 1000000

/-!
Verification of the real-time audio buffering layer of the Teensy ambisonic
microphone array firmware: a shallow embedding of src/AudioOutputTDM_Slave.cpp
and src/patches/usb_audio.cpp, with theorems settling the specification claims
about pool balance, TDM interleaving, USB receive reassembly and overrun
policy, USB transmit underrun handling, the output-queue invariants and the
feedback rate controller.

Machine integers are modelled as `Nat` with explicit `% 2 ^ 32` where 32-bit
overflow matters; 16-bit sample stores are modelled by masking with `0xFFFF`.
Audio blocks are value records carrying a pool identifier (for ownership
ledgers) and their sample data; `AudioStream::release` is modelled by
appending the released block's identifier to a ledger list.
-/

/-- AUDIO_BLOCK_SAMPLES, the Teensy audio library block size (128 samples). -/
def AUDIO_BLOCK_SAMPLES : Nat := 128

/-- Pointwise update of a word-addressed memory, modelling a single store. -/
def wupd (f : Nat → Nat) (a v : Nat) : Nat → Nat :=
  fun x => if x = a then v else f x

theorem wupd_same (f : Nat → Nat) (a v : Nat) : wupd f a v a = v := by
  simp [wupd]

theorem wupd_other (f : Nat → Nat) {a x : Nat} (v : Nat) (h : x ≠ a) :
    wupd f a v x = f x := by
  simp [wupd, h]

/-! ## TDM transmit engine (src/AudioOutputTDM_Slave.cpp)

Claim C1 concerns the ownership discipline of the 16 channel slots
(`block_input`), `AudioOutputTDM_Slave::update` and the release loop of
`AudioOutputTDM_Slave::isr`; blocks are represented by their pool identifiers
and every `release` call is logged in a ledger.  Claims C4 and C5 concern the
buffer-filling loop of the ISR (`memcpy_tdm_tx`), which is embedded separately
below over word-addressed memories. -/

/-- The static state of AudioOutputTDM_Slave that claim C1 is about: the 16
channel slots, plus two ledgers recording every block received from upstream
(`receiveReadOnly` returning non-null) and every block passed to `release`. -/
structure TdmS where
  block_input : Fin 16 → Option Nat
  acquired : List Nat
  released : List Nat

/-- State after AudioOutputTDM_Slave::begin: all 16 slots null. -/
def tdmInit : TdmS :=
  { block_input := fun _ => none, acquired := [], released := [] }

/-- AudioOutputTDM_Slave::update: under the interrupt mask, save each slot's
previous occupant and store the block received from upstream (`recv i`,
none when `receiveReadOnly(i)` returns null); afterwards release every
non-null previous occupant. -/
def tdm_update (recv : Fin 16 → Option Nat) (s : TdmS) : TdmS :=
  { block_input := recv,
    acquired := s.acquired ++ (List.finRange 16).filterMap recv,
    released := s.released ++ (List.finRange 16).filterMap s.block_input }

/-- The release loop at the end of AudioOutputTDM_Slave::isr: release every
non-null channel slot exactly once and set the slot to null. -/
def tdm_isr_release (s : TdmS) : TdmS :=
  { block_input := fun _ => none,
    acquired := s.acquired,
    released := s.released ++ (List.finRange 16).filterMap s.block_input }

/-- One full update+ISR cycle: the cooperative update deposits the received
blocks, then the transmit ISR consumes and releases them. -/
def tdm_cycle (recv : Fin 16 → Option Nat) (s : TdmS) : TdmS :=
  tdm_isr_release (tdm_update recv s)

theorem tdm_cycle_inv (recv : Fin 16 → Option Nat) (s : TdmS)
    (h1 : ∀ i, s.block_input i = none) (h2 : s.released = s.acquired) :
    (∀ i, (tdm_cycle recv s).block_input i = none) ∧
      (tdm_cycle recv s).released = (tdm_cycle recv s).acquired := by
  have hnil : (List.finRange 16).filterMap s.block_input = [] := by
    apply List.filterMap_eq_nil_iff.mpr
    intro a _
    exact h1 a
  constructor
  · intro i; rfl
  · simp [tdm_cycle, tdm_update, tdm_isr_release, hnil, h2]

/-- Claim C1 (pool balance): starting from the post-begin baseline (all slots
null, empty ledgers), after any sequence of full update+ISR cycles — with
arbitrary per-cycle deposits, a null deposit standing for a channel with no
producer or a failed upstream allocation — every channel slot is null again,
the list of released block identifiers equals the list of acquired
(deposited) block identifiers, and hence every deposited block has been
released exactly as many times as it was deposited: zero net change in
outstanding pool blocks, no leak and no double release. -/
theorem c1_tdm_pool_balance (recvs : List (Fin 16 → Option Nat)) :
    (∀ i, (recvs.foldl (fun s r => tdm_cycle r s) tdmInit).block_input i = none) ∧
    (recvs.foldl (fun s r => tdm_cycle r s) tdmInit).released =
      (recvs.foldl (fun s r => tdm_cycle r s) tdmInit).acquired ∧
    ∀ b, ((recvs.foldl (fun s r => tdm_cycle r s) tdmInit).released).count b =
      ((recvs.foldl (fun s r => tdm_cycle r s) tdmInit).acquired).count b := by
  have main : ∀ (l : List (Fin 16 → Option Nat)) (s : TdmS),
      (∀ i, s.block_input i = none) → s.released = s.acquired →
      (∀ i, (l.foldl (fun s r => tdm_cycle r s) s).block_input i = none) ∧
        (l.foldl (fun s r => tdm_cycle r s) s).released =
          (l.foldl (fun s r => tdm_cycle r s) s).acquired := by
    intro l
    induction l with
    | nil => intro s h1 h2; exact ⟨h1, h2⟩
    | cons r rest ih =>
        intro s h1 h2
        have h := tdm_cycle_inv r s h1 h2
        exact ih (tdm_cycle r s) h.1 h.2
  have h := main recvs tdmInit (fun _ => rfl) rfl
  exact ⟨h.1, h.2, fun b => by rw [h.2]⟩

/-! ## TDM interleave loop (memcpy_tdm_tx and the ISR fill loop)

The transmit buffer is modelled as a word-addressed memory `Nat → Nat`
(one cell per 32-bit word).  A channel's source data is a word-indexed
function `Nat → Nat` (the audio block's int16 data viewed as uint32 words,
exactly as the C code casts it); a null channel slot is replaced by the
shared `zeros` buffer. -/

/-- out1 of memcpy_tdm_tx: `(in1 << 16) | (in2 & 0xFFFF)` on uint32. -/
def tdm_out1 (in1 in2 : Nat) : Nat :=
  ((in1 <<< 16) ||| (in2 &&& 0xFFFF)) % 2 ^ 32

/-- out2 of memcpy_tdm_tx: `(in1 & 0xFFFF0000) | (in2 >> 16)` on uint32. -/
def tdm_out2 (in1 in2 : Nat) : Nat :=
  (in1 &&& 0xFFFF0000) ||| (in2 >>> 16)

/-- The loop body of memcpy_tdm_tx, recursing on the remaining iteration
count `n` (the C loop runs `AUDIO_BLOCK_SAMPLES/4` iterations).  `j` is the
index of the next source word of each channel (`src1++`/`src2++`), `dest`
the current destination word address; each iteration consumes two source
words per channel and stores at `dest`, `dest+8`, `dest+16`, `dest+24`,
then advances `dest` by 32. -/
def memcpy_tdm_tx_go (src1 src2 : Nat → Nat) : Nat → Nat → Nat → (Nat → Nat) → (Nat → Nat)
  | _, _, 0, buf => buf
  | j, dest, n + 1, buf =>
      let buf1 := wupd buf dest (tdm_out1 (src1 j) (src2 j))
      let buf2 := wupd buf1 (dest + 8) (tdm_out2 (src1 j) (src2 j))
      let buf3 := wupd buf2 (dest + 16) (tdm_out1 (src1 (j + 1)) (src2 (j + 1)))
      let buf4 := wupd buf3 (dest + 24) (tdm_out2 (src1 (j + 1)) (src2 (j + 1)))
      memcpy_tdm_tx_go src1 src2 (j + 2) (dest + 32) n buf4

/-- memcpy_tdm_tx(dest, src1, src2) of src/AudioOutputTDM_Slave.cpp. -/
def memcpy_tdm_tx (dest : Nat) (src1 src2 : Nat → Nat) (buf : Nat → Nat) : Nat → Nat :=
  memcpy_tdm_tx_go src1 src2 0 dest (AUDIO_BLOCK_SAMPLES / 4) buf

theorem memcpy_tdm_tx_go_frame (src1 src2 : Nat → Nat) :
    ∀ (n j dest : Nat) (buf : Nat → Nat) (a : Nat),
      (∀ t, t < 2 * n → a ≠ dest + 16 * t ∧ a ≠ dest + 16 * t + 8) →
      memcpy_tdm_tx_go src1 src2 j dest n buf a = buf a := by
  intro n
  induction n with
  | zero => intro j dest buf a _; rfl
  | succ m ih =>
      intro j dest buf a h
      show memcpy_tdm_tx_go src1 src2 (j + 2) (dest + 32) m _ a = buf a
      rw [ih (j + 2) (dest + 32) _ a
        (by
          intro t ht
          have := h (t + 2) (by omega)
          constructor <;> omega)]
      have h0 := h 0 (by omega)
      have h1 := h 1 (by omega)
      simp only [wupd]
      rw [if_neg (by omega), if_neg (by omega), if_neg (by omega), if_neg (by omega)]

theorem memcpy_tdm_tx_go_read (src1 src2 : Nat → Nat) :
    ∀ (n j dest : Nat) (buf : Nat → Nat) (t : Nat), t < 2 * n →
      memcpy_tdm_tx_go src1 src2 j dest n buf (dest + 16 * t) =
        tdm_out1 (src1 (j + t)) (src2 (j + t)) ∧
      memcpy_tdm_tx_go src1 src2 j dest n buf (dest + 16 * t + 8) =
        tdm_out2 (src1 (j + t)) (src2 (j + t)) := by
  intro n
  induction n with
  | zero => intro j dest buf t ht; omega
  | succ m ih =>
      intro j dest buf t ht
      have hun : ∀ a, memcpy_tdm_tx_go src1 src2 j dest (m + 1) buf a =
          memcpy_tdm_tx_go src1 src2 (j + 2) (dest + 32) m
            (wupd (wupd (wupd (wupd buf dest (tdm_out1 (src1 j) (src2 j)))
              (dest + 8) (tdm_out2 (src1 j) (src2 j)))
              (dest + 16) (tdm_out1 (src1 (j + 1)) (src2 (j + 1))))
              (dest + 24) (tdm_out2 (src1 (j + 1)) (src2 (j + 1)))) a :=
        fun a => rfl
      rw [hun, hun]
      by_cases h2 : 2 ≤ t
      · obtain ⟨u, rfl⟩ : ∃ u, t = u + 2 := ⟨t - 2, by omega⟩
        have hih := ih (j + 2) (dest + 32)
          (wupd (wupd (wupd (wupd buf dest (tdm_out1 (src1 j) (src2 j)))
            (dest + 8) (tdm_out2 (src1 j) (src2 j)))
            (dest + 16) (tdm_out1 (src1 (j + 1)) (src2 (j + 1))))
            (dest + 24) (tdm_out2 (src1 (j + 1)) (src2 (j + 1)))) u (by omega)
        constructor
        · rw [show dest + 16 * (u + 2) = dest + 32 + 16 * u by ring]
          rw [hih.1]; ring_nf
        · rw [show dest + 16 * (u + 2) + 8 = dest + 32 + 16 * u + 8 by ring]
          rw [hih.2]; ring_nf
      · have hfr1 := memcpy_tdm_tx_go_frame src1 src2 m (j + 2) (dest + 32)
          (wupd (wupd (wupd (wupd buf dest (tdm_out1 (src1 j) (src2 j)))
            (dest + 8) (tdm_out2 (src1 j) (src2 j)))
            (dest + 16) (tdm_out1 (src1 (j + 1)) (src2 (j + 1))))
            (dest + 24) (tdm_out2 (src1 (j + 1)) (src2 (j + 1))))
          (dest + 16 * t) (by intro u hu; constructor <;> omega)
        have hfr2 := memcpy_tdm_tx_go_frame src1 src2 m (j + 2) (dest + 32)
          (wupd (wupd (wupd (wupd buf dest (tdm_out1 (src1 j) (src2 j)))
            (dest + 8) (tdm_out2 (src1 j) (src2 j)))
            (dest + 16) (tdm_out1 (src1 (j + 1)) (src2 (j + 1))))
            (dest + 24) (tdm_out2 (src1 (j + 1)) (src2 (j + 1))))
          (dest + 16 * t + 8) (by intro u hu; constructor <;> omega)
        rw [hfr1, hfr2]
        interval_cases t <;>
          exact ⟨by simp only [wupd, Nat.mul_zero, Nat.mul_one, Nat.add_zero]
                    split_ifs <;> first | rfl | omega,
                 by simp only [wupd, Nat.mul_zero, Nat.mul_one, Nat.add_zero]
                    split_ifs <;> first | rfl | omega⟩

/-- The shared silence buffer `zeros`, zero-filled at begin(). -/
def zeros : Nat → Nat := fun _ => 0

/-- The ternary `block_input[i] ? block_input[i]->data : zeros` of the ISR:
the source words used for channel `c`. -/
def tdm_chan_src (blocks : Nat → Option (Nat → Nat)) (c : Nat) : Nat → Nat :=
  match blocks c with
  | some d => d
  | none => zeros

/-- The fill loop of AudioOutputTDM_Slave::isr, recursing on the remaining
pair count `n` (the C loop runs 8 iterations, `i += 2`, `dest++`). -/
def tdm_isr_fill_go (blocks : Nat → Option (Nat → Nat)) : Nat → Nat → Nat → (Nat → Nat) → (Nat → Nat)
  | _, _, 0, buf => buf
  | i, dest, n + 1, buf =>
      tdm_isr_fill_go blocks (i + 2) (dest + 1) n
        (memcpy_tdm_tx dest (tdm_chan_src blocks i) (tdm_chan_src blocks (i + 1)) buf)

/-- The complete fill pass of the ISR over one free buffer half starting at
word address `dest`: 8 channel pairs, pair p at destination `dest + p`. -/
def tdm_isr_fill (blocks : Nat → Option (Nat → Nat)) (dest : Nat) (buf : Nat → Nat) : Nat → Nat :=
  tdm_isr_fill_go blocks 0 dest 8 buf

theorem tdm_isr_fill_go_frame (blocks : Nat → Option (Nat → Nat)) :
    ∀ (n i dest : Nat) (buf : Nat → Nat) (a : Nat),
      (∀ q t, q < n → t < AUDIO_BLOCK_SAMPLES / 2 →
        a ≠ dest + q + 16 * t ∧ a ≠ dest + q + 16 * t + 8) →
      tdm_isr_fill_go blocks i dest n buf a = buf a := by
  intro n
  induction n with
  | zero => intro i dest buf a _; rfl
  | succ m ih =>
      intro i dest buf a h
      show tdm_isr_fill_go blocks (i + 2) (dest + 1) m
        (memcpy_tdm_tx dest (tdm_chan_src blocks i) (tdm_chan_src blocks (i + 1)) buf) a = buf a
      rw [ih (i + 2) (dest + 1)
        (memcpy_tdm_tx dest (tdm_chan_src blocks i) (tdm_chan_src blocks (i + 1)) buf) a
        (by
          intro q t hq ht
          have := h (q + 1) t (by omega) ht
          constructor <;> omega)]
      apply memcpy_tdm_tx_go_frame
      intro t ht
      have := h 0 (t / 2) (by omega) (by
        show t / 2 < AUDIO_BLOCK_SAMPLES / 2
        have : AUDIO_BLOCK_SAMPLES / 4 = 32 := by norm_num [AUDIO_BLOCK_SAMPLES]
        omega)
      have h16 : 16 * (t / 2 * 2) ≤ 16 * t := by omega
      have := h 0 t (by omega) (by
        have : AUDIO_BLOCK_SAMPLES / 4 = 32 := by norm_num [AUDIO_BLOCK_SAMPLES]
        show t < AUDIO_BLOCK_SAMPLES / 2
        norm_num [AUDIO_BLOCK_SAMPLES] at *
        omega)
      constructor <;> omega

theorem tdm_isr_fill_go_read (blocks : Nat → Option (Nat → Nat)) :
    ∀ (n : Nat), n ≤ 8 → ∀ (i dest : Nat) (buf : Nat → Nat) (q t : Nat),
      q < n → t < AUDIO_BLOCK_SAMPLES / 2 →
      tdm_isr_fill_go blocks i dest n buf (dest + q + 16 * t) =
        tdm_out1 (tdm_chan_src blocks (i + 2 * q) t) (tdm_chan_src blocks (i + 2 * q + 1) t) ∧
      tdm_isr_fill_go blocks i dest n buf (dest + q + 16 * t + 8) =
        tdm_out2 (tdm_chan_src blocks (i + 2 * q) t) (tdm_chan_src blocks (i + 2 * q + 1) t) := by
  intro n
  induction n with
  | zero => intro _ i dest buf q t hq ht; omega
  | succ m ih =>
      intro hn i dest buf q t hq ht
      have habs : AUDIO_BLOCK_SAMPLES / 2 = 64 ∧ AUDIO_BLOCK_SAMPLES / 4 = 32 := by
        norm_num [AUDIO_BLOCK_SAMPLES]
      show tdm_isr_fill_go blocks (i + 2) (dest + 1) m
          (memcpy_tdm_tx dest (tdm_chan_src blocks i) (tdm_chan_src blocks (i + 1)) buf)
          (dest + q + 16 * t) = _ ∧
        tdm_isr_fill_go blocks (i + 2) (dest + 1) m
          (memcpy_tdm_tx dest (tdm_chan_src blocks i) (tdm_chan_src blocks (i + 1)) buf)
          (dest + q + 16 * t + 8) = _
      rcases Nat.eq_zero_or_pos q with hq0 | hqpos
      · subst hq0
        have hfr1 := tdm_isr_fill_go_frame blocks m (i + 2) (dest + 1)
          (memcpy_tdm_tx dest (tdm_chan_src blocks i) (tdm_chan_src blocks (i + 1)) buf)
          (dest + 0 + 16 * t)
          (by intro q' t' hq' ht'; rw [habs.1] at ht'; constructor <;> omega)
        have hfr2 := tdm_isr_fill_go_frame blocks m (i + 2) (dest + 1)
          (memcpy_tdm_tx dest (tdm_chan_src blocks i) (tdm_chan_src blocks (i + 1)) buf)
          (dest + 0 + 16 * t + 8)
          (by intro q' t' hq' ht'; rw [habs.1] at ht'; constructor <;> omega)
        rw [hfr1, hfr2]
        have hread := memcpy_tdm_tx_go_read (tdm_chan_src blocks i) (tdm_chan_src blocks (i + 1))
          (AUDIO_BLOCK_SAMPLES / 4) 0 dest buf t (by rw [habs.1] at ht; rw [habs.2]; omega)
        rw [show dest + 0 + 16 * t = dest + 16 * t by ring,
            show i + 2 * 0 = i by ring]
        simpa [memcpy_tdm_tx] using hread
      · obtain ⟨u, rfl⟩ : ∃ u, q = u + 1 := ⟨q - 1, by omega⟩
        have hih := ih (by omega) (i + 2) (dest + 1)
          (memcpy_tdm_tx dest (tdm_chan_src blocks i) (tdm_chan_src blocks (i + 1)) buf)
          u t (by omega) ht
        rw [show dest + (u + 1) + 16 * t = dest + 1 + u + 16 * t by ring,
            show i + 2 * (u + 1) = i + 2 + 2 * u by ring]
        exact ⟨hih.1, hih.2⟩

theorem tdm_out1_left_silent (b : Nat) : tdm_out1 0 b >>> 16 = 0 := by
  have h : b &&& 0xFFFF = b % 65536 := by
    have h0 := Nat.and_pow_two_sub_one_eq_mod b 16
    norm_num at h0
    exact h0
  unfold tdm_out1
  rw [Nat.zero_shiftLeft, Nat.zero_or, h, Nat.shiftRight_eq_div_pow]
  norm_num
  omega

theorem tdm_out2_left_silent (b : Nat) (hb : b < 2 ^ 32) : tdm_out2 0 b >>> 16 = 0 := by
  unfold tdm_out2
  rw [Nat.zero_and, Nat.zero_or, Nat.shiftRight_eq_div_pow, Nat.shiftRight_eq_div_pow]
  norm_num
  norm_num at hb
  omega

theorem tdm_out1_right_silent (a : Nat) : tdm_out1 a 0 &&& 0xFFFF = 0 := by
  unfold tdm_out1
  rw [Nat.zero_and, Nat.or_zero, Nat.shiftLeft_eq]
  have h := Nat.and_pow_two_sub_one_eq_mod ((a * 2 ^ 16) % 2 ^ 32) 16
  norm_num at h ⊢
  rw [h]

theorem tdm_out2_right_silent (a : Nat) : tdm_out2 a 0 &&& 0xFFFF = 0 := by
  unfold tdm_out2
  rw [Nat.zero_shiftRight, Nat.or_zero, Nat.and_assoc]
  rw [show ((0xFFFF0000 : Nat) &&& 0xFFFF) = 0 by decide]
  exact Nat.and_zero a

/-- Claim C4 (TDM interleave law): for every channel pair p < 8 of the 16 TDM
channels and every 32-bit source word index t in the block, the ISR fill pass
writes, into the free half starting at word address base, the words
out1 = (inA << 16) | (inB & 0xFFFF) at word offset p + 16*t and
out2 = (inA & 0xFFFF0000) | (inB >> 16) at word offset p + 16*t + 8, where
inA and inB are the t-th source words of channels 2p and 2p+1 (the zeros
buffer standing in for a null slot); out2 sits 8 words after out1 and the
pair's words recur with a 16-word frame stride inside the half. -/
theorem c4_tdm_interleave (blocks : Nat → Option (Nat → Nat)) (base : Nat)
    (buf : Nat → Nat) (p t : Nat) (hp : p < 8) (ht : t < AUDIO_BLOCK_SAMPLES / 2) :
    tdm_isr_fill blocks base buf (base + p + 16 * t) =
      ((tdm_chan_src blocks (2 * p) t <<< 16) |||
        (tdm_chan_src blocks (2 * p + 1) t &&& 0xFFFF)) % 2 ^ 32 ∧
    tdm_isr_fill blocks base buf (base + p + 16 * t + 8) =
      (tdm_chan_src blocks (2 * p) t &&& 0xFFFF0000) |||
        (tdm_chan_src blocks (2 * p + 1) t >>> 16) := by
  have h := tdm_isr_fill_go_read blocks 8 (le_refl 8) 0 base buf p t hp ht
  simpa [tdm_isr_fill, tdm_out1, tdm_out2] using h

theorem c4_tdm_interleave_witness :
    (1 : Nat) < 8 ∧ (2 : Nat) < AUDIO_BLOCK_SAMPLES / 2 ∧
    (tdm_isr_fill (fun c => if c = 2 then some (fun k => 65536 * k + 7) else none)
        5 zeros (5 + 1 + 16 * 2) =
      ((tdm_chan_src (fun c => if c = 2 then some (fun k => 65536 * k + 7) else none) (2 * 1) 2 <<< 16) |||
        (tdm_chan_src (fun c => if c = 2 then some (fun k => 65536 * k + 7) else none) (2 * 1 + 1) 2 &&& 0xFFFF)) % 2 ^ 32 ∧
     tdm_isr_fill (fun c => if c = 2 then some (fun k => 65536 * k + 7) else none)
        5 zeros (5 + 1 + 16 * 2 + 8) =
      (tdm_chan_src (fun c => if c = 2 then some (fun k => 65536 * k + 7) else none) (2 * 1) 2 &&& 0xFFFF0000) |||
        (tdm_chan_src (fun c => if c = 2 then some (fun k => 65536 * k + 7) else none) (2 * 1 + 1) 2 >>> 16)) :=
  ⟨by norm_num, by norm_num [AUDIO_BLOCK_SAMPLES],
    c4_tdm_interleave (fun c => if c = 2 then some (fun k => 65536 * k + 7) else none)
      5 zeros 1 2 (by norm_num) (by norm_num [AUDIO_BLOCK_SAMPLES])⟩

/-- Claim C5 (silence substitution): if channel c's slot is null when the TDM
transmit ISR fires, the source used for that channel is the shared zeros
buffer (the embedding dereferences no null pointer: tdm_chan_src selects
zeros for a none slot), so the halfwords belonging to channel c inside both
output words of its pair are zero at every word index t; and if the partner
channel of the pair is null too, both output words equal the zero-filled
pattern exactly. -/
theorem c5_silence_substitution (blocks : Nat → Option (Nat → Nat)) (base : Nat)
    (buf : Nat → Nat) (c t : Nat) (hc : c < 16) (ht : t < AUDIO_BLOCK_SAMPLES / 2)
    (hnull : blocks c = none)
    (hw : ∀ c2 k, tdm_chan_src blocks c2 k < 2 ^ 32) :
    (c % 2 = 0 →
      tdm_isr_fill blocks base buf (base + c / 2 + 16 * t) >>> 16 = 0 ∧
      tdm_isr_fill blocks base buf (base + c / 2 + 16 * t + 8) >>> 16 = 0) ∧
    (c % 2 = 1 →
      tdm_isr_fill blocks base buf (base + c / 2 + 16 * t) &&& 0xFFFF = 0 ∧
      tdm_isr_fill blocks base buf (base + c / 2 + 16 * t + 8) &&& 0xFFFF = 0) ∧
    (blocks (2 * (c / 2)) = none → blocks (2 * (c / 2) + 1) = none →
      tdm_isr_fill blocks base buf (base + c / 2 + 16 * t) = 0 ∧
      tdm_isr_fill blocks base buf (base + c / 2 + 16 * t + 8) = 0) := by
  have hq : c / 2 < 8 := by omega
  have h := tdm_isr_fill_go_read blocks 8 (le_refl 8) 0 base buf (c / 2) t hq ht
  rw [Nat.zero_add] at h
  have h1 : tdm_isr_fill blocks base buf (base + c / 2 + 16 * t) =
      tdm_out1 (tdm_chan_src blocks (2 * (c / 2)) t)
        (tdm_chan_src blocks (2 * (c / 2) + 1) t) := h.1
  have h2 : tdm_isr_fill blocks base buf (base + c / 2 + 16 * t + 8) =
      tdm_out2 (tdm_chan_src blocks (2 * (c / 2)) t)
        (tdm_chan_src blocks (2 * (c / 2) + 1) t) := h.2
  refine ⟨?_, ?_, ?_⟩
  · intro hev
    have hcc : 2 * (c / 2) = c := by omega
    have hz : tdm_chan_src blocks (2 * (c / 2)) t = 0 := by
      rw [hcc]; simp [tdm_chan_src, hnull, zeros]
    rw [h1, h2, hz]
    exact ⟨tdm_out1_left_silent _, tdm_out2_left_silent _ (hw _ _)⟩
  · intro hodd
    have hcc : 2 * (c / 2) + 1 = c := by omega
    have hz : tdm_chan_src blocks (2 * (c / 2) + 1) t = 0 := by
      rw [hcc]; simp [tdm_chan_src, hnull, zeros]
    rw [h1, h2, hz]
    exact ⟨tdm_out1_right_silent _, tdm_out2_right_silent _⟩
  · intro hn1 hn2
    have hz1 : tdm_chan_src blocks (2 * (c / 2)) t = 0 := by
      simp [tdm_chan_src, hn1, zeros]
    have hz2 : tdm_chan_src blocks (2 * (c / 2) + 1) t = 0 := by
      simp [tdm_chan_src, hn2, zeros]
    rw [h1, h2, hz1, hz2]
    exact ⟨by decide, by decide⟩

theorem c5_silence_substitution_witness :
    (3 : Nat) < 16 ∧ (1 : Nat) < AUDIO_BLOCK_SAMPLES / 2 ∧
    (fun _ : Nat => (none : Option (Nat → Nat))) 3 = none ∧
    ((3 % 2 = 0 →
      tdm_isr_fill (fun _ => none) 0 zeros (0 + 3 / 2 + 16 * 1) >>> 16 = 0 ∧
      tdm_isr_fill (fun _ => none) 0 zeros (0 + 3 / 2 + 16 * 1 + 8) >>> 16 = 0) ∧
     (3 % 2 = 1 →
      tdm_isr_fill (fun _ => none) 0 zeros (0 + 3 / 2 + 16 * 1) &&& 0xFFFF = 0 ∧
      tdm_isr_fill (fun _ => none) 0 zeros (0 + 3 / 2 + 16 * 1 + 8) &&& 0xFFFF = 0) ∧
     ((fun _ : Nat => (none : Option (Nat → Nat))) (2 * (3 / 2)) = none →
      (fun _ : Nat => (none : Option (Nat → Nat))) (2 * (3 / 2) + 1) = none →
      tdm_isr_fill (fun _ => none) 0 zeros (0 + 3 / 2 + 16 * 1) = 0 ∧
      tdm_isr_fill (fun _ => none) 0 zeros (0 + 3 / 2 + 16 * 1 + 8) = 0)) :=
  ⟨by norm_num, by norm_num [AUDIO_BLOCK_SAMPLES], rfl,
    c5_silence_substitution (fun _ => none) 0 zeros 3 1 (by norm_num)
      (by norm_num [AUDIO_BLOCK_SAMPLES]) rfl
      (by intro c2 k; norm_num [tdm_chan_src, zeros])⟩

/-! ## USB transmit path (AudioOutputUSB and usb_audio_transmit_callback)

The transmit buffer usb_audio_transmit_buffer is a uint16 array; it is
modelled halfword-addressed (`Nat → Nat`, one cell per 16-bit halfword,
little-endian split of the 32-bit stores of copy_from_buffers_4ch).  Audio
blocks here carry a pool identifier and a sample-indexed data function; the
allocator is an oracle pool whose `fails` function decides which allocation
calls return null and whose `mem` function provides the (uninitialised)
contents of a freshly allocated block. -/

/-- An audio block as handled by the USB transmit path. -/
structure TxBlk where
  id : Nat
  data : Nat → Nat

/-- The block pool as seen from the transmit path: a fresh-identifier
counter, a failure oracle and an uninitialised-contents oracle. -/
structure TxPool where
  next : Nat
  fails : Nat → Bool
  mem : Nat → Nat → Nat

/-- AudioStream::allocate for the transmit path. -/
def TxPool.alloc (p : TxPool) : Option TxBlk × TxPool :=
  (if p.fails p.next then none else some ⟨p.next, p.mem p.next⟩,
   { p with next := p.next + 1 })

/-- The identifiers released by passing an optional block to release. -/
def optIdList : Option TxBlk → List Nat
  | none => []
  | some b => [b.id]

/-- The static state of AudioOutputUSB together with the globals the
transmit path can see: the depth-2 output queue (four channel groups, head
entry and second entry), the head-entry offset, the function-static counter
of usb_audio_transmit_callback, the interface alt-setting flag, the pool,
the release ledger and usb_audio_underrun_count. -/
structure OutS where
  left_1st : Option TxBlk
  left_2nd : Option TxBlk
  right_1st : Option TxBlk
  right_2nd : Option TxBlk
  left2_1st : Option TxBlk
  left2_2nd : Option TxBlk
  right2_1st : Option TxBlk
  right2_2nd : Option TxBlk
  offset_1st : Nat
  tx_count : Nat
  transmit_setting : Bool
  pool : TxPool
  released : List Nat
  underrun_count : Nat

/-- AudioOutputUSB::begin: null the whole queue and reset the offset. -/
def AudioOutputUSB_begin (s : OutS) : OutS :=
  { s with
    left_1st := none, right_1st := none, left2_1st := none, right2_1st := none,
    left_2nd := none, right_2nd := none, left2_2nd := none, right2_2nd := none,
    offset_1st := 0 }

/-- The per-channel silence fill of AudioOutputUSB::update: if the channel
was not received, allocate a block and zero it (when allocation succeeds). -/
def silenceStep (o : Option TxBlk) (p : TxPool) : Option TxBlk × TxPool :=
  match o with
  | some b => (some b, p)
  | none =>
      match TxPool.alloc p with
      | (none, p2) => (none, p2)
      | (some b, p2) => (some { b with data := fun _ => 0 }, p2)

/-- AudioOutputUSB::update, with the four blocks handed over by
receiveWritable(0..3) passed as parameters: when the alt setting is 0,
release everything and clear the queue; otherwise fill silence for missing
channels, bail out (releasing the set) on allocation failure, and insert the
set into the depth-2 queue under the interrupt mask, discarding the oldest
queued set on overrun. -/
def AudioOutputUSB_update (recv1 recv2 recv3 recv4 : Option TxBlk) (s : OutS) : OutS :=
  if s.transmit_setting = false then
    { s with
      released := s.released ++ optIdList recv1 ++ optIdList recv2 ++ optIdList recv3
        ++ optIdList recv4 ++ optIdList s.left_1st ++ optIdList s.left_2nd
        ++ optIdList s.right_1st ++ optIdList s.right_2nd
        ++ optIdList s.left2_1st ++ optIdList s.left2_2nd
        ++ optIdList s.right2_1st ++ optIdList s.right2_2nd,
      left_1st := none, left_2nd := none, right_1st := none, right_2nd := none,
      left2_1st := none, left2_2nd := none, right2_1st := none, right2_2nd := none,
      offset_1st := 0 }
  else
    let s1 := silenceStep recv1 s.pool
    let s2 := silenceStep recv2 s1.2
    let s3 := silenceStep recv3 s2.2
    let s4 := silenceStep recv4 s3.2
    let s := { s with pool := s4.2 }
    match s1.1, s2.1, s3.1, s4.1 with
    | some b1, some b2, some b3, some b4 =>
        if s.left_1st.isNone then
          { s with left_1st := some b1, right_1st := some b2,
                   left2_1st := some b3, right2_1st := some b4, offset_1st := 0 }
        else if s.left_2nd.isNone then
          { s with left_2nd := some b1, right_2nd := some b2,
                   left2_2nd := some b3, right2_2nd := some b4 }
        else
          { s with
            left_1st := s.left_2nd, right_1st := s.right_2nd,
            left2_1st := s.left2_2nd, right2_1st := s.right2_2nd,
            left_2nd := some b1, right_2nd := some b2,
            left2_2nd := some b3, right2_2nd := some b4,
            offset_1st := 0,
            released := s.released ++ optIdList s.left_1st ++ optIdList s.right_1st
              ++ optIdList s.left2_1st ++ optIdList s.right2_1st }
    | a1, a2, a3, a4 =>
        { s with released := s.released ++ optIdList a1 ++ optIdList a2
            ++ optIdList a3 ++ optIdList a4 }

/-- memset over the halfword-addressed transmit buffer: zero `n` halfwords
starting at halfword offset `start`. -/
def memsetHW (buf : Nat → Nat) (start n : Nat) : Nat → Nat :=
  fun a => if start ≤ a ∧ a < start + n then 0 else buf a

/-- copy_from_buffers_4ch of src/patches/usb_audio.cpp: per sample, two
32-bit stores `(r1<<16)|(l1&0xFFFF)` and `(r2<<16)|(l2&0xFFFF)`, modelled as
four halfword stores (little endian) at halfword offset `dst`, advancing
`dst` by 4 per sample. -/
def copy_from_buffers_4ch (dst : Nat) (l1 r1 l2 r2 : Nat → Nat) (off num : Nat)
    (buf : Nat → Nat) : Nat → Nat :=
  match num with
  | 0 => buf
  | n + 1 =>
      let w1 := ((r1 off &&& 0xFFFF) <<< 16) ||| (l1 off &&& 0xFFFF)
      let w2 := ((r2 off &&& 0xFFFF) <<< 16) ||| (l2 off &&& 0xFFFF)
      let b1 := wupd (wupd buf dst (w1 &&& 0xFFFF)) (dst + 1) (w1 >>> 16)
      let b2 := wupd (wupd b1 (dst + 2) (w2 &&& 0xFFFF)) (dst + 3) (w2 >>> 16)
      copy_from_buffers_4ch (dst + 4) l1 r1 l2 r2 (off + 1) n b2

/-- The while loop of usb_audio_transmit_callback, with explicit fuel (the
caller passes more fuel than the loop can ever consume).  `none` signals
either fuel exhaustion or that the loop dereferenced a sibling head pointer
(right_1st, left2_1st, right2_1st) that was null while left_1st was not:
the C code would dereference a null pointer there.  On underrun the C code
does `memset(usb_audio_transmit_buffer + len*2, 0, num*8)` on the uint16
pointer, i.e. it zeroes `num*4` halfwords starting at halfword offset
`len*2` (not `len*4` where the unwritten region actually starts). -/
def txLoopF : Nat → Nat → Nat → OutS → (Nat → Nat) → Option (OutS × (Nat → Nat))
  | 0, _, _, _, _ => none
  | fuel + 1, len, target, s, buf =>
    if len < target then
      match s.left_1st with
      | none => some (s, memsetHW buf (len * 2) ((target - len) * 4))
      | some left1 =>
        match s.right_1st, s.left2_1st, s.right2_1st with
        | some right1, some left2, some right2 =>
          let num0 := target - len
          let avail := AUDIO_BLOCK_SAMPLES - s.offset_1st
          let num := if num0 > avail then avail else num0
          let buf2 := copy_from_buffers_4ch (len * 4) left1.data right1.data
            left2.data right2.data s.offset_1st num buf
          let len2 := len + num
          let off2 := s.offset_1st + num
          if AUDIO_BLOCK_SAMPLES ≤ off2 then
            txLoopF fuel len2 target
              { s with
                released := s.released ++ [left1.id, right1.id, left2.id, right2.id],
                left_1st := s.left_2nd, left_2nd := none,
                right_1st := s.right_2nd, right_2nd := none,
                left2_1st := s.left2_2nd, left2_2nd := none,
                right2_1st := s.right2_2nd, right2_2nd := none,
                offset_1st := 0 } buf2
          else
            txLoopF fuel len2 target { s with offset_1st := off2 } buf2
        | _, _, _ => none
    else some (s, buf)

/-- usb_audio_transmit_callback: advance the function-static packet counter
(alternating target 44/45 every tenth call), run the fill loop, and return
`target * 8` bytes. -/
def usb_audio_transmit_callback (s0 : OutS) (buf : Nat → Nat) :
    Option (OutS × (Nat → Nat) × Nat) :=
  let c := (s0.tx_count + 1) % 2 ^ 32
  let ct := if c < 10 then (c, 44) else (0, 45)
  let s := { s0 with tx_count := ct.1 }
  match txLoopF (2 * ct.2 + 2) 0 ct.2 s buf with
  | none => none
  | some (s2, buf2) => some (s2, buf2, ct.2 * 8)

/-- The queue consistency invariant of the transmit path: the four head
pointers agree on nullness, the four second pointers agree on nullness, and
the head offset is strictly below the block size. -/
def OutInv (s : OutS) : Prop :=
  s.left_1st.isSome = s.right_1st.isSome ∧
  s.left_1st.isSome = s.left2_1st.isSome ∧
  s.left_1st.isSome = s.right2_1st.isSome ∧
  s.left_2nd.isSome = s.right_2nd.isSome ∧
  s.left_2nd.isSome = s.left2_2nd.isSome ∧
  s.left_2nd.isSome = s.right2_2nd.isSome ∧
  s.offset_1st < AUDIO_BLOCK_SAMPLES

theorem outInv_begin (s : OutS) : OutInv (AudioOutputUSB_begin s) := by
  simp [OutInv, AudioOutputUSB_begin, AUDIO_BLOCK_SAMPLES]

theorem outInv_tx_count (s : OutS) (x : Nat) : OutInv { s with tx_count := x } ↔ OutInv s := by
  simp [OutInv]

theorem outInv_update (r1 r2 r3 r4 : Option TxBlk) (s : OutS) (h : OutInv s) :
    OutInv (AudioOutputUSB_update r1 r2 r3 r4 s) := by
  obtain ⟨h1, h2, h3, h4, h5, h6, h7⟩ := h
  unfold AudioOutputUSB_update
  by_cases hset : s.transmit_setting = false
  · rw [if_pos hset]
    simp [OutInv, AUDIO_BLOCK_SAMPLES]
  · rw [if_neg hset]
    simp only []
    generalize silenceStep r1 s.pool = q1
    obtain ⟨o1, p1⟩ := q1
    generalize silenceStep r2 p1 = q2
    obtain ⟨o2, p2⟩ := q2
    generalize silenceStep r3 p2 = q3
    obtain ⟨o3, p3⟩ := q3
    generalize silenceStep r4 p3 = q4
    obtain ⟨o4, p4⟩ := q4
    cases o1 <;> cases o2 <;> cases o3 <;> cases o4 <;>
      simp only [] <;>
      first
      | exact ⟨h1, h2, h3, h4, h5, h6, h7⟩
      | (by_cases hq1 : s.left_1st.isNone
         · rw [if_pos hq1]
           exact ⟨by simp, by simp, by simp, h4, h5, h6,
             by simp [AUDIO_BLOCK_SAMPLES]⟩
         · rw [if_neg hq1]
           by_cases hq2 : s.left_2nd.isNone
           · rw [if_pos hq2]
             exact ⟨h1, h2, h3, by simp, by simp, by simp, h7⟩
           · rw [if_neg hq2]
             exact ⟨h4, h5, h6, by simp, by simp, by simp,
               by simp [AUDIO_BLOCK_SAMPLES]⟩)


theorem txLoopF_some_inv :
    ∀ (fuel len target : Nat) (s : OutS) (buf : Nat → Nat),
      OutInv s → target - len < fuel →
      ∃ s2 buf2, txLoopF fuel len target s buf = some (s2, buf2) ∧ OutInv s2 := by
  intro fuel
  induction fuel with
  | zero => intro len target s buf _ hf; omega
  | succ m ih =>
      intro len target s buf hinv hf
      by_cases hlt : len < target
      · obtain ⟨h1, h2, h3, h4, h5, h6, h7⟩ := hinv
        cases hL : s.left_1st with
        | none =>
            exact ⟨s, memsetHW buf (len * 2) ((target - len) * 4),
              by simp [txLoopF, hlt, hL], h1, h2, h3, h4, h5, h6, h7⟩
        | some left1 =>
            have hsome : s.left_1st.isSome = true := by rw [hL]; rfl
            obtain ⟨right1, hR⟩ := Option.isSome_iff_exists.mp (h1 ▸ hsome)
            obtain ⟨left2, hL2⟩ := Option.isSome_iff_exists.mp (h2 ▸ hsome)
            obtain ⟨right2, hR2⟩ := Option.isSome_iff_exists.mp (h3 ▸ hsome)
            have hnum : 1 ≤ (if target - len > AUDIO_BLOCK_SAMPLES - s.offset_1st
                then AUDIO_BLOCK_SAMPLES - s.offset_1st else target - len) := by
              split <;> omega
            have hunf : ∀ r : Option (OutS × (Nat → Nat)),
                ((if AUDIO_BLOCK_SAMPLES ≤ s.offset_1st +
                    (if target - len > AUDIO_BLOCK_SAMPLES - s.offset_1st
                      then AUDIO_BLOCK_SAMPLES - s.offset_1st else target - len) then
                  txLoopF m (len + (if target - len > AUDIO_BLOCK_SAMPLES - s.offset_1st
                      then AUDIO_BLOCK_SAMPLES - s.offset_1st else target - len)) target
                    { s with
                      released := s.released ++ [left1.id, right1.id, left2.id, right2.id],
                      left_1st := s.left_2nd, left_2nd := none,
                      right_1st := s.right_2nd, right_2nd := none,
                      left2_1st := s.left2_2nd, left2_2nd := none,
                      right2_1st := s.right2_2nd, right2_2nd := none,
                      offset_1st := 0 }
                    (copy_from_buffers_4ch (len * 4) left1.data right1.data left2.data
                      right2.data s.offset_1st
                      (if target - len > AUDIO_BLOCK_SAMPLES - s.offset_1st
                        then AUDIO_BLOCK_SAMPLES - s.offset_1st else target - len) buf)
                else
                  txLoopF m (len + (if target - len > AUDIO_BLOCK_SAMPLES - s.offset_1st
                      then AUDIO_BLOCK_SAMPLES - s.offset_1st else target - len)) target
                    { s with offset_1st := s.offset_1st +
                      (if target - len > AUDIO_BLOCK_SAMPLES - s.offset_1st
                        then AUDIO_BLOCK_SAMPLES - s.offset_1st else target - len) }
                    (copy_from_buffers_4ch (len * 4) left1.data right1.data left2.data
                      right2.data s.offset_1st
                      (if target - len > AUDIO_BLOCK_SAMPLES - s.offset_1st
                        then AUDIO_BLOCK_SAMPLES - s.offset_1st else target - len) buf)) = r) →
                txLoopF (m + 1) len target s buf = r := by
              intro r hr
              rw [← hr]
              simp only [txLoopF, if_pos hlt, hL, hR, hL2, hR2]
            by_cases hoff : AUDIO_BLOCK_SAMPLES ≤ s.offset_1st +
                (if target - len > AUDIO_BLOCK_SAMPLES - s.offset_1st
                  then AUDIO_BLOCK_SAMPLES - s.offset_1st else target - len)
            · obtain ⟨s2, buf2, heq, hinv2⟩ := ih
                (len + (if target - len > AUDIO_BLOCK_SAMPLES - s.offset_1st
                  then AUDIO_BLOCK_SAMPLES - s.offset_1st else target - len)) target
                { s with
                  released := s.released ++ [left1.id, right1.id, left2.id, right2.id],
                  left_1st := s.left_2nd, left_2nd := none,
                  right_1st := s.right_2nd, right_2nd := none,
                  left2_1st := s.left2_2nd, left2_2nd := none,
                  right2_1st := s.right2_2nd, right2_2nd := none,
                  offset_1st := 0 }
                (copy_from_buffers_4ch (len * 4) left1.data right1.data left2.data
                  right2.data s.offset_1st
                  (if target - len > AUDIO_BLOCK_SAMPLES - s.offset_1st
                    then AUDIO_BLOCK_SAMPLES - s.offset_1st else target - len) buf)
                ⟨h4, h5, h6, rfl, rfl, rfl, by simp [AUDIO_BLOCK_SAMPLES]⟩
                (by omega)
              exact ⟨s2, buf2, hunf _ (by rw [if_pos hoff]; exact heq), hinv2⟩
            · obtain ⟨s2, buf2, heq, hinv2⟩ := ih
                (len + (if target - len > AUDIO_BLOCK_SAMPLES - s.offset_1st
                  then AUDIO_BLOCK_SAMPLES - s.offset_1st else target - len)) target
                { s with offset_1st := s.offset_1st +
                  (if target - len > AUDIO_BLOCK_SAMPLES - s.offset_1st
                    then AUDIO_BLOCK_SAMPLES - s.offset_1st else target - len) }
                (copy_from_buffers_4ch (len * 4) left1.data right1.data left2.data
                  right2.data s.offset_1st
                  (if target - len > AUDIO_BLOCK_SAMPLES - s.offset_1st
                    then AUDIO_BLOCK_SAMPLES - s.offset_1st else target - len) buf)
                ⟨h1, h2, h3, h4, h5, h6, by
                  show s.offset_1st + (if target - len > AUDIO_BLOCK_SAMPLES - s.offset_1st
                    then AUDIO_BLOCK_SAMPLES - s.offset_1st else target - len) <
                    AUDIO_BLOCK_SAMPLES
                  omega⟩
                (by omega)
              exact ⟨s2, buf2, hunf _ (by rw [if_neg hoff]; exact heq), hinv2⟩
      · exact ⟨s, buf, by simp [txLoopF, hlt], hinv⟩

/-- States of the transmit path reachable through AudioOutputUSB::begin,
AudioOutputUSB::update (with arbitrary received blocks and allocator
behaviour), changes of the interface alt setting, and successful runs of
usb_audio_transmit_callback. -/
inductive ReachOut : OutS → Prop where
  | start (s0 : OutS) : ReachOut (AudioOutputUSB_begin s0)
  | update {s : OutS} (r1 r2 r3 r4 : Option TxBlk) :
      ReachOut s → ReachOut (AudioOutputUSB_update r1 r2 r3 r4 s)
  | setting {s : OutS} (b : Bool) : ReachOut s → ReachOut { s with transmit_setting := b }
  | transmit {s s2 : OutS} {buf buf2 : Nat → Nat} {n : Nat} :
      ReachOut s → usb_audio_transmit_callback s buf = some (s2, buf2, n) → ReachOut s2

theorem eq_none_of_isSome_eq_false {o : Option TxBlk} (h : o.isSome = false) : o = none := by
  cases o
  · rfl
  · simp at h

theorem ne_none_of_isSome {o : Option TxBlk} (h : o.isSome = true) : o ≠ none := by
  cases o
  · simp at h
  · simp

theorem usb_audio_transmit_callback_some (s : OutS) (buf : Nat → Nat) (hinv : OutInv s) :
    ∃ s2 buf2 n, usb_audio_transmit_callback s buf = some (s2, buf2, n) ∧ OutInv s2 := by
  unfold usb_audio_transmit_callback
  by_cases hcl : (s.tx_count + 1) % 2 ^ 32 < 10
  · obtain ⟨s3, buf3, heq, hinv3⟩ :=
      txLoopF_some_inv (2 * 44 + 2) 0 44
        { s with tx_count := (s.tx_count + 1) % 2 ^ 32 } buf
        ((outInv_tx_count _ _).mpr hinv) (by omega)
    refine ⟨s3, buf3, 44 * 8, ?_, hinv3⟩
    simp only [if_pos hcl]
    rw [heq]
  · obtain ⟨s3, buf3, heq, hinv3⟩ :=
      txLoopF_some_inv (2 * 45 + 2) 0 45 { s with tx_count := 0 } buf
        ((outInv_tx_count _ _).mpr hinv) (by omega)
    refine ⟨s3, buf3, 45 * 8, ?_, hinv3⟩
    simp only [if_neg hcl]
    rw [heq]

theorem reachOut_inv {s : OutS} (h : ReachOut s) : OutInv s := by
  induction h with
  | start s0 => exact outInv_begin s0
  | update r1 r2 r3 r4 _ ih => exact outInv_update r1 r2 r3 r4 _ ih
  | setting b _ ih =>
      obtain ⟨h1, h2, h3, h4, h5, h6, h7⟩ := ih
      exact ⟨h1, h2, h3, h4, h5, h6, h7⟩
  | transmit hr hc ih =>
      rename_i s s2 buf buf2 n
      obtain ⟨s3, buf3, n3, heq, hinv3⟩ := usb_audio_transmit_callback_some s buf ih
      rw [heq] at hc
      simp only [Option.some.injEq, Prod.mk.injEq] at hc
      rw [← hc.1]
      exact hinv3

/-- Claim C9 (USB output queue head-offset invariant): in every state
reachable through begin, update and the transmit callback, offset_1st is
strictly below AUDIO_BLOCK_SAMPLES; and in the transmit-callback loop,
whenever copying num = min(target-len, blockSamples-offset) samples
exhausts the head entry (offset reaching the block size), the four head
blocks are released, the second entry shifts into the head slot (the second
slot becoming null) and offset_1st resets to 0, as exhibited by the
unfolding of the loop step. -/
theorem c9_queue_head_invariant (s : OutS) (h : ReachOut s) :
    s.offset_1st < AUDIO_BLOCK_SAMPLES ∧
    (∀ (fuel len target : Nat) (buf : Nat → Nat) (l1 r1 l2 r2 : TxBlk),
      s.left_1st = some l1 → s.right_1st = some r1 →
      s.left2_1st = some l2 → s.right2_1st = some r2 →
      len < target →
      AUDIO_BLOCK_SAMPLES ≤ s.offset_1st +
        (if target - len > AUDIO_BLOCK_SAMPLES - s.offset_1st
          then AUDIO_BLOCK_SAMPLES - s.offset_1st else target - len) →
      txLoopF (fuel + 1) len target s buf =
        txLoopF fuel
          (len + (if target - len > AUDIO_BLOCK_SAMPLES - s.offset_1st
            then AUDIO_BLOCK_SAMPLES - s.offset_1st else target - len)) target
          { s with
            released := s.released ++ [l1.id, r1.id, l2.id, r2.id],
            left_1st := s.left_2nd, left_2nd := none,
            right_1st := s.right_2nd, right_2nd := none,
            left2_1st := s.left2_2nd, left2_2nd := none,
            right2_1st := s.right2_2nd, right2_2nd := none,
            offset_1st := 0 }
          (copy_from_buffers_4ch (len * 4) l1.data r1.data l2.data r2.data
            s.offset_1st
            (if target - len > AUDIO_BLOCK_SAMPLES - s.offset_1st
              then AUDIO_BLOCK_SAMPLES - s.offset_1st else target - len) buf)) := by
  refine ⟨(reachOut_inv h).2.2.2.2.2.2, ?_⟩
  intro fuel len target buf l1 r1 l2 r2 hl hr hl2 hr2 hlt hoff
  simp only [txLoopF, if_pos hlt, hl, hr, hl2, hr2]
  rw [if_pos hoff]

/-- A closed example state, used to instantiate the reachability
hypotheses of the queue-invariant theorems. -/
def outExampleBase : OutS :=
  { left_1st := some ⟨0, fun _ => 0⟩, left_2nd := none,
    right_1st := none, right_2nd := none,
    left2_1st := none, left2_2nd := none,
    right2_1st := none, right2_2nd := none,
    offset_1st := 999, tx_count := 5, transmit_setting := true,
    pool := ⟨0, fun _ => false, fun _ _ => 0⟩, released := [],
    underrun_count := 0 }

theorem c9_queue_head_invariant_witness :
    ReachOut (AudioOutputUSB_begin outExampleBase) ∧
    (AudioOutputUSB_begin outExampleBase).offset_1st < AUDIO_BLOCK_SAMPLES :=
  ⟨ReachOut.start outExampleBase,
    (c9_queue_head_invariant _ (ReachOut.start outExampleBase)).1⟩

/-- Claim C10 (implicit TX queue group consistency): in every reachable
state the four head pointers are all null or all non-null, likewise the four
second pointers, and the transmit callback always returns successfully: the
embedding returns none exactly where the C code would dereference a null
sibling head pointer (right_1st, left2_1st or right2_1st, read after testing
only left_1st for null), so isSome says those unguarded dereferences never
hit a null pointer. -/
theorem c10_tx_group_consistency (s : OutS) (h : ReachOut s) :
    ((s.left_1st = none ∧ s.right_1st = none ∧ s.left2_1st = none ∧ s.right2_1st = none) ∨
      (s.left_1st ≠ none ∧ s.right_1st ≠ none ∧ s.left2_1st ≠ none ∧ s.right2_1st ≠ none)) ∧
    ((s.left_2nd = none ∧ s.right_2nd = none ∧ s.left2_2nd = none ∧ s.right2_2nd = none) ∨
      (s.left_2nd ≠ none ∧ s.right_2nd ≠ none ∧ s.left2_2nd ≠ none ∧ s.right2_2nd ≠ none)) ∧
    (∀ buf, (usb_audio_transmit_callback s buf).isSome = true) := by
  obtain ⟨h1, h2, h3, h4, h5, h6, h7⟩ := reachOut_inv h
  refine ⟨?_, ?_, ?_⟩
  · cases hL : s.left_1st with
    | none =>
        rw [hL] at h1 h2 h3
        simp only [Option.isSome_none] at h1 h2 h3
        exact Or.inl ⟨rfl, eq_none_of_isSome_eq_false h1.symm,
          eq_none_of_isSome_eq_false h2.symm, eq_none_of_isSome_eq_false h3.symm⟩
    | some b =>
        rw [hL] at h1 h2 h3
        simp only [Option.isSome_some] at h1 h2 h3
        exact Or.inr ⟨by simp [hL], ne_none_of_isSome h1.symm,
          ne_none_of_isSome h2.symm, ne_none_of_isSome h3.symm⟩
  · cases hL : s.left_2nd with
    | none =>
        rw [hL] at h4 h5 h6
        simp only [Option.isSome_none] at h4 h5 h6
        exact Or.inl ⟨rfl, eq_none_of_isSome_eq_false h4.symm,
          eq_none_of_isSome_eq_false h5.symm, eq_none_of_isSome_eq_false h6.symm⟩
    | some b =>
        rw [hL] at h4 h5 h6
        simp only [Option.isSome_some] at h4 h5 h6
        exact Or.inr ⟨by simp [hL], ne_none_of_isSome h4.symm,
          ne_none_of_isSome h5.symm, ne_none_of_isSome h6.symm⟩
  · intro buf
    obtain ⟨s3, buf3, n3, heq, _⟩ :=
      usb_audio_transmit_callback_some s buf ⟨h1, h2, h3, h4, h5, h6, h7⟩
    rw [heq]
    rfl

theorem c10_tx_group_consistency_witness :
    ReachOut (AudioOutputUSB_begin outExampleBase) ∧
    (usb_audio_transmit_callback (AudioOutputUSB_begin outExampleBase)
      (fun _ => 0)).isSome = true :=
  ⟨ReachOut.start outExampleBase,
    (c10_tx_group_consistency _ (ReachOut.start outExampleBase)).2.2 (fun _ => 0)⟩

/-- A transmit-path state whose output queue is empty (a starved call), with
the underrun counter at 0: claim C3 predicts the counter reads 1 after the
starved callback invocation. -/
def txStarvedState : OutS :=
  { left_1st := none, left_2nd := none, right_1st := none, right_2nd := none,
    left2_1st := none, left2_2nd := none, right2_1st := none, right2_2nd := none,
    offset_1st := 0, tx_count := 5, transmit_setting := true,
    pool := ⟨0, fun _ => false, fun _ _ => 0⟩, released := [],
    underrun_count := 0 }

/-- Counterexample to claim C3: a transmit-callback invocation that finds no
queued block set (left_1st null from the start) returns successfully and
leaves usb_audio_underrun_count at 0 — the transmit callback contains no
counter increment, so the counter is not incremented by exactly 1 for the
starved call as the claim states. -/
theorem c3_counterexample :
    (usb_audio_transmit_callback txStarvedState (fun _ => 0)).map
      (fun r => r.1.underrun_count) = some 0 ∧ (0 : Nat) ≠ 1 :=
  ⟨rfl, by decide⟩

theorem txLoopF_starved (fuel len target : Nat) (s : OutS) (buf : Nat → Nat)
    (hlt : len < target) (hL : s.left_1st = none) :
    txLoopF (fuel + 1) len target s buf =
      some (s, memsetHW buf (len * 2) ((target - len) * 4)) := by
  simp only [txLoopF, if_pos hlt, hL]

/-- Claim C3 as amended: on every invocation of usb_audio_transmit_callback
that is starved from the start (left_1st null when first tested, len = 0),
the entire transmit region for the packet's target samples — target*4
halfwords, all four channels — is zero-filled, the callback returns
target*8 bytes, and usb_audio_underrun_count is NOT modified (the transmit
callback never touches it; the variable counts receive-side underruns in
AudioInputUSB::update only).  When starvation instead strikes after len > 0
samples were already copied, the memset in the C source is applied at
halfword offset len*2 rather than len*4 (a missing uint32 cast on the
uint16 buffer pointer), so the remaining region is not correctly
zero-filled — the original claim also fails for those calls. -/
theorem c3_tx_underrun_amended (s : OutS) (buf : Nat → Nat)
    (h : s.left_1st = none) :
    ∃ s2 buf2,
      usb_audio_transmit_callback s buf =
        some (s2, buf2,
          (if (s.tx_count + 1) % 2 ^ 32 < 10 then (44 : Nat) else 45) * 8) ∧
      (∀ k, k < (if (s.tx_count + 1) % 2 ^ 32 < 10 then (44 : Nat) else 45) * 4 →
        buf2 k = 0) ∧
      s2.underrun_count = s.underrun_count ∧
      s2.released = s.released ∧
      s2.left_1st = none ∧
      s2.offset_1st = s.offset_1st := by
  by_cases hcl : (s.tx_count + 1) % 2 ^ 32 < 10
  · refine ⟨{ s with tx_count := (s.tx_count + 1) % 2 ^ 32 },
      memsetHW buf (0 * 2) ((44 - 0) * 4), ?_, ?_, rfl, rfl, h, rfl⟩
    · unfold usb_audio_transmit_callback
      simp only [if_pos hcl]
      rw [show (2 * 44 + 2 : Nat) = 89 + 1 by norm_num,
        txLoopF_starved 89 0 44 { s with tx_count := (s.tx_count + 1) % 2 ^ 32 }
          buf (by norm_num) h]
    · intro k hk
      rw [if_pos hcl] at hk
      simp only [memsetHW]
      rw [if_pos (by omega)]
  · refine ⟨{ s with tx_count := 0 },
      memsetHW buf (0 * 2) ((45 - 0) * 4), ?_, ?_, rfl, rfl, h, rfl⟩
    · unfold usb_audio_transmit_callback
      simp only [if_neg hcl]
      rw [show (2 * 45 + 2 : Nat) = 91 + 1 by norm_num,
        txLoopF_starved 91 0 45 { s with tx_count := 0 } buf (by norm_num) h]
    · intro k hk
      rw [if_neg hcl] at hk
      simp only [memsetHW]
      rw [if_pos (by omega)]

theorem c3_tx_underrun_amended_witness :
    txStarvedState.left_1st = none ∧
    (∃ s2 buf2,
      usb_audio_transmit_callback txStarvedState (fun _ => 7) =
        some (s2, buf2,
          (if (txStarvedState.tx_count + 1) % 2 ^ 32 < 10 then (44 : Nat) else 45) * 8) ∧
      (∀ k, k < (if (txStarvedState.tx_count + 1) % 2 ^ 32 < 10 then (44 : Nat) else 45) * 4 →
        buf2 k = 0) ∧
      s2.underrun_count = txStarvedState.underrun_count ∧
      s2.released = txStarvedState.released ∧
      s2.left_1st = none ∧
      s2.offset_1st = txStarvedState.offset_1st) :=
  ⟨rfl, c3_tx_underrun_amended txStarvedState (fun _ => 7) rfl⟩

/-! ## USB receive path (usb_audio_receive_callback and AudioInputUSB)

Audio blocks on the receive side are modelled with their sample data as a
growing list (the C code writes into the block array at offset
incoming_count, which always equals the number of samples already
deposited, so array-prefix writes are list appends).  A packet is the list
of its samples, each sample being the pair of 32-bit words (L1,R1) and
(L2,R2) that the C code reads from rx_buffer (`len >>= 3`: one sample is 8
bytes).  The allocator is an oracle pool: `fails` decides which allocation
calls return null. -/

/-- An audio block of the receive path: pool identifier plus deposited
samples (one list per block; each of the four channel blocks of a set holds
its own channel's samples). -/
structure RxBlk where
  id : Nat
  data : List Nat
deriving DecidableEq, Repr

/-- The pool as seen from the receive path. -/
structure RxPool where
  next : Nat
  fails : Nat → Bool

/-- AudioStream::allocate for the receive path: a fresh block with no
deposited samples, or null when the oracle says the pool is exhausted. -/
def RxPool.alloc (p : RxPool) : Option RxBlk × RxPool :=
  (if p.fails p.next then none else some ⟨p.next, []⟩,
   { p with next := p.next + 1 })

/-- The static state of AudioInputUSB together with the globals of the
receive path: the four incoming slots, the four ready-mailbox slots,
incoming_count, receive_flag, the overrun/underrun counters, the feedback
accumulator, the pool and the release ledger. -/
structure RxS where
  incoming_left : Option RxBlk
  incoming_right : Option RxBlk
  incoming_left2 : Option RxBlk
  incoming_right2 : Option RxBlk
  ready_left : Option RxBlk
  ready_right : Option RxBlk
  ready_left2 : Option RxBlk
  ready_right2 : Option RxBlk
  incoming_count : Nat
  receive_flag : Bool
  overrun_count : Nat
  underrun_count : Nat
  feedback_accumulator : Nat
  pool : RxPool
  released : List Nat

/-- copy_to_buffers_4ch of src/patches/usb_audio.cpp: demultiplex each
sample's two 32-bit words into the four int16 channel arrays —
left1 = n1 & 0xFFFF, right1 = n1 >> 16, left2 = n2 & 0xFFFF,
right2 = n2 >> 16 (16-bit stores, hence the masks). -/
def copy_to_buffers_4ch :
    List (Nat × Nat) → List Nat → List Nat → List Nat → List Nat →
      List Nat × List Nat × List Nat × List Nat
  | [], l1, r1, l2, r2 => (l1, r1, l2, r2)
  | (n1, n2) :: rest, l1, r1, l2, r2 =>
      copy_to_buffers_4ch rest
        (l1 ++ [n1 &&& 0xFFFF]) (r1 ++ [(n1 >>> 16) &&& 0xFFFF])
        (l2 ++ [n2 &&& 0xFFFF]) (r2 ++ [(n2 >>> 16) &&& 0xFFFF])

/-- The while loop of usb_audio_receive_callback, with explicit fuel (the
callers pass packet length + 2, which the loop can never consume).  The
local variables left1..right2 of the C function are the four block
parameters; the incoming_* statics are written at exactly the points the C
code writes them (every return path, and the post-publish re-allocation).
The `goto send` recovery of the C code is the last branch (a full incoming
set with the mailbox free is published and the loop continues with a fresh
set and count = 0). -/
def rcvLoopF : Nat → List (Nat × Nat) → Nat → RxBlk → RxBlk → RxBlk → RxBlk → RxS → RxS
  | 0, _, _, _, _, _, _, s => s
  | fuel + 1, pdata, count, l1, r1, l2, r2, s =>
    if pdata.length = 0 then
      { s with incoming_left := some l1, incoming_right := some r1,
               incoming_left2 := some l2, incoming_right2 := some r2,
               incoming_count := count }
    else
      if pdata.length < AUDIO_BLOCK_SAMPLES - count then
        let d := copy_to_buffers_4ch pdata l1.data r1.data l2.data r2.data
        { s with
          incoming_left := some { l1 with data := d.1 },
          incoming_right := some { r1 with data := d.2.1 },
          incoming_left2 := some { l2 with data := d.2.2.1 },
          incoming_right2 := some { r2 with data := d.2.2.2 },
          incoming_count := count + pdata.length }
      else if 0 < AUDIO_BLOCK_SAMPLES - count then
        let d := copy_to_buffers_4ch (pdata.take (AUDIO_BLOCK_SAMPLES - count))
          l1.data r1.data l2.data r2.data
        let l1f : RxBlk := { l1 with data := d.1 }
        let r1f : RxBlk := { r1 with data := d.2.1 }
        let l2f : RxBlk := { l2 with data := d.2.2.1 }
        let r2f : RxBlk := { r2 with data := d.2.2.2 }
        let rest := pdata.drop (AUDIO_BLOCK_SAMPLES - count)
        if s.ready_left.isSome || s.ready_right.isSome ||
            s.ready_left2.isSome || s.ready_right2.isSome then
          { s with
            incoming_left := some l1f, incoming_right := some r1f,
            incoming_left2 := some l2f, incoming_right2 := some r2f,
            incoming_count := count + (AUDIO_BLOCK_SAMPLES - count),
            overrun_count := s.overrun_count + (if 0 < rest.length then 1 else 0) }
        else
          let s := { s with ready_left := some l1f, ready_right := some r1f,
                            ready_left2 := some l2f, ready_right2 := some r2f }
          match RxPool.alloc s.pool with
          | (none, p1) =>
              { s with
                pool := p1,
                incoming_left := none, incoming_right := none,
                incoming_left2 := none, incoming_right2 := none,
                incoming_count := 0 }
          | (some n1, p1) =>
            match RxPool.alloc p1 with
            | (none, p2) =>
                { s with
                  pool := p2, released := s.released ++ [n1.id],
                  incoming_left := none, incoming_right := none,
                  incoming_left2 := none, incoming_right2 := none,
                  incoming_count := 0 }
            | (some n2, p2) =>
              match RxPool.alloc p2 with
              | (none, p3) =>
                  { s with
                    pool := p3, released := s.released ++ [n1.id, n2.id],
                    incoming_left := none, incoming_right := none,
                    incoming_left2 := none, incoming_right2 := none,
                    incoming_count := 0 }
              | (some n3, p3) =>
                match RxPool.alloc p3 with
                | (none, p4) =>
                    { s with
                      pool := p4,
                      released := s.released ++ [n1.id, n2.id, n3.id],
                      incoming_left := none, incoming_right := none,
                      incoming_left2 := none, incoming_right2 := none,
                      incoming_count := 0 }
                | (some n4, p4) =>
                    rcvLoopF fuel rest 0 n1 n2 n3 n4
                      { s with
                        pool := p4,
                        incoming_left := some n1, incoming_right := some n2,
                        incoming_left2 := some n3, incoming_right2 := some n4 }
      else
        if s.ready_left.isSome || s.ready_right.isSome ||
            s.ready_left2.isSome || s.ready_right2.isSome then
          { s with incoming_left := some l1, incoming_right := some r1,
                   incoming_left2 := some l2, incoming_right2 := some r2 }
        else
          let s := { s with ready_left := some l1, ready_right := some r1,
                            ready_left2 := some l2, ready_right2 := some r2 }
          match RxPool.alloc s.pool with
          | (none, p1) =>
              { s with
                pool := p1,
                incoming_left := none, incoming_right := none,
                incoming_left2 := none, incoming_right2 := none,
                incoming_count := 0 }
          | (some n1, p1) =>
            match RxPool.alloc p1 with
            | (none, p2) =>
                { s with
                  pool := p2, released := s.released ++ [n1.id],
                  incoming_left := none, incoming_right := none,
                  incoming_left2 := none, incoming_right2 := none,
                  incoming_count := 0 }
            | (some n2, p2) =>
              match RxPool.alloc p2 with
              | (none, p3) =>
                  { s with
                    pool := p3, released := s.released ++ [n1.id, n2.id],
                    incoming_left := none, incoming_right := none,
                    incoming_left2 := none, incoming_right2 := none,
                    incoming_count := 0 }
              | (some n3, p3) =>
                match RxPool.alloc p3 with
                | (none, p4) =>
                    { s with
                      pool := p4,
                      released := s.released ++ [n1.id, n2.id, n3.id],
                      incoming_left := none, incoming_right := none,
                      incoming_left2 := none, incoming_right2 := none,
                      incoming_count := 0 }
                | (some n4, p4) =>
                    rcvLoopF fuel pdata 0 n1 n2 n3 n4
                      { s with
                        pool := p4,
                        incoming_left := some n1, incoming_right := some n2,
                        incoming_left2 := some n3, incoming_right2 := some n4 }

/-- The fourth step of the initial fill-in chain of
usb_audio_receive_callback (ensure incoming_right2), then the loop. -/
def rcvPhase1D (packet : List (Nat × Nat)) (l1 r1 l2 : RxBlk) (s : RxS) : RxS :=
  match s.incoming_right2 with
  | some r2 => rcvLoopF (packet.length + 2) packet s.incoming_count l1 r1 l2 r2 s
  | none =>
      match RxPool.alloc s.pool with
      | (none, p) => { s with pool := p }
      | (some r2, p) =>
          rcvLoopF (packet.length + 2) packet s.incoming_count l1 r1 l2 r2
            { s with pool := p, incoming_right2 := some r2 }

/-- Third step of the initial fill-in chain (ensure incoming_left2). -/
def rcvPhase1C (packet : List (Nat × Nat)) (l1 r1 : RxBlk) (s : RxS) : RxS :=
  match s.incoming_left2 with
  | some l2 => rcvPhase1D packet l1 r1 l2 s
  | none =>
      match RxPool.alloc s.pool with
      | (none, p) => { s with pool := p }
      | (some l2, p) => rcvPhase1D packet l1 r1 l2 { s with pool := p, incoming_left2 := some l2 }

/-- Second step of the initial fill-in chain (ensure incoming_right). -/
def rcvPhase1B (packet : List (Nat × Nat)) (l1 : RxBlk) (s : RxS) : RxS :=
  match s.incoming_right with
  | some r1 => rcvPhase1C packet l1 r1 s
  | none =>
      match RxPool.alloc s.pool with
      | (none, p) => { s with pool := p }
      | (some r1, p) => rcvPhase1C packet l1 r1 { s with pool := p, incoming_right := some r1 }

/-- usb_audio_receive_callback of src/patches/usb_audio.cpp: set
receive_flag, ensure the four incoming blocks exist (returning silently on
allocation failure, with blocks allocated so far left stored in their
slots), then run the demultiplexing loop. -/
def usb_audio_receive_callback (packet : List (Nat × Nat)) (s0 : RxS) : RxS :=
  let s := { s0 with receive_flag := true }
  match s.incoming_left with
  | some l1 => rcvPhase1B packet l1 s
  | none =>
      match RxPool.alloc s.pool with
      | (none, p) => { s with pool := p }
      | (some l1, p) => rcvPhase1B packet l1 { s with pool := p, incoming_left := some l1 }

/-- The identifiers released by passing an optional receive block to
AudioStream::release. -/
def optRxIdList : Option RxBlk → List Nat
  | none => []
  | some b => [b.id]

/-- The feedback-accumulator arithmetic of AudioInputUSB::update, on uint32:
if a packet arrived since the last update (f), add
diff = AUDIO_BLOCK_SAMPLES/2 - incoming_count (two's-complement wrap-add);
then, if some ready channel was null (underrun) and f, add 3500. -/
def input_update_feedback (fb c : Nat) (f underrun : Bool) : Nat :=
  let fb1 := if f then
      (((fb : Int) + (AUDIO_BLOCK_SAMPLES : Int) / 2 - (c : Int)).emod (2 ^ 32)).toNat
    else fb
  if underrun && f then (fb1 + 3500) % 2 ^ 32 else fb1

/-- AudioInputUSB::update: drain the ready mailbox under the interrupt mask,
clear receive_flag, apply the feedback arithmetic, count an underrun when
some drained channel is null, and transmit-and-release every non-null
drained block (the transmitted quadruple is returned so a run can collect
the consumed sample stream). -/
def AudioInputUSB_update (s : RxS) :
    RxS × (Option RxBlk × Option RxBlk × Option RxBlk × Option RxBlk) :=
  let left1 := s.ready_left
  let right1 := s.ready_right
  let left2 := s.ready_left2
  let right2 := s.ready_right2
  let underrun := left1.isNone || right1.isNone || left2.isNone || right2.isNone
  ({ s with
      ready_left := none, ready_right := none, ready_left2 := none, ready_right2 := none,
      receive_flag := false,
      feedback_accumulator :=
        input_update_feedback s.feedback_accumulator s.incoming_count s.receive_flag underrun,
      underrun_count := s.underrun_count + (if underrun then 1 else 0),
      released := s.released ++ optRxIdList left1 ++ optRxIdList right1
        ++ optRxIdList left2 ++ optRxIdList right2 },
   (left1, right1, left2, right2))

/-- AudioInputUSB::begin. -/
def AudioInputUSB_begin (s : RxS) : RxS :=
  { s with incoming_count := 0,
           incoming_left := none, incoming_right := none,
           incoming_left2 := none, incoming_right2 := none,
           ready_left := none, ready_right := none,
           ready_left2 := none, ready_right2 := none,
           receive_flag := false }

set_option maxRecDepth 4000

/-- The receive-path state after usb_audio_configure and
AudioInputUSB::begin: everything null, counters zero, feedback accumulator
seeded to 44.1 * 2^24, and a pool that never fails (claims about the
receive path assume no allocation failure unless they model one). -/
def rxInit : RxS :=
  { incoming_left := none, incoming_right := none,
    incoming_left2 := none, incoming_right2 := none,
    ready_left := none, ready_right := none,
    ready_left2 := none, ready_right2 := none,
    incoming_count := 0, receive_flag := false,
    overrun_count := 0, underrun_count := 0,
    feedback_accumulator := 739875226,
    pool := ⟨0, fun _ => false⟩, released := [] }

/-- First packet of the C2 counterexample run: 129 samples (sample i carries
words (i, 0)), so one block set completes and is published and one extra
sample starts the next set. -/
def c2packet1 : List (Nat × Nat) := (List.range 129).map (fun i => (i, 0))

/-- Second packet of the C2 counterexample run: 128 samples (words
(1000+i, 0)); the incoming set fills exactly after 127 of them while the
mailbox still holds the first, undrained set. -/
def c2packet2 : List (Nat × Nat) := (List.range 128).map (fun i => (1000 + i, 0))

/-- Counterexample to claim C2: starting from the post-begin state with the
mailbox never drained, delivering c2packet1 then c2packet2 fills the
incoming set exactly while the mailbox is occupied.  The claim says the
newly filled set becomes the new ready set and the old one is discarded
(drop-oldest); the code instead leaves the ready mailbox unchanged —
still holding the first completed set — keeps the newly filled set in the
incoming slots (incoming_count = AUDIO_BLOCK_SAMPLES, its left-channel data
starting with sample 128, not sample 0), drops the residual sample and
counts one overrun. -/
theorem c2_counterexample :
    (usb_audio_receive_callback c2packet2
        (usb_audio_receive_callback c2packet1 rxInit)).ready_left =
      (usb_audio_receive_callback c2packet1 rxInit).ready_left ∧
    (usb_audio_receive_callback c2packet1 rxInit).ready_left =
      some ⟨0, (List.range 128).map (fun i => i)⟩ ∧
    (usb_audio_receive_callback c2packet2
        (usb_audio_receive_callback c2packet1 rxInit)).incoming_left =
      some ⟨4, 128 :: (List.range 127).map (fun i => 1000 + i)⟩ ∧
    (usb_audio_receive_callback c2packet2
        (usb_audio_receive_callback c2packet1 rxInit)).incoming_count =
      AUDIO_BLOCK_SAMPLES ∧
    (usb_audio_receive_callback c2packet2
        (usb_audio_receive_callback c2packet1 rxInit)).overrun_count = 1 := by
  refine ⟨?_, ?_, ?_, ?_, ?_⟩ <;> decide

theorem rcv_all_some (packet : List (Nat × Nat)) (s : RxS) (b1 b2 b3 b4 : RxBlk)
    (h1 : s.incoming_left = some b1) (h2 : s.incoming_right = some b2)
    (h3 : s.incoming_left2 = some b3) (h4 : s.incoming_right2 = some b4) :
    usb_audio_receive_callback packet s =
      rcvLoopF (packet.length + 2) packet s.incoming_count b1 b2 b3 b4
        { s with receive_flag := true } := by
  unfold usb_audio_receive_callback rcvPhase1B rcvPhase1C rcvPhase1D
  simp only [h1, h2, h3, h4]

theorem rcvLoopF_done (fuel : Nat) (pdata : List (Nat × Nat)) (count : Nat)
    (l1 r1 l2 r2 : RxBlk) (s : RxS) (h0 : pdata.length = 0) :
    rcvLoopF (fuel + 1) pdata count l1 r1 l2 r2 s =
      { s with incoming_left := some l1, incoming_right := some r1,
               incoming_left2 := some l2, incoming_right2 := some r2,
               incoming_count := count } := by
  simp only [rcvLoopF]
  rw [if_pos h0]

theorem rcvLoopF_partial_step (fuel : Nat) (pdata : List (Nat × Nat)) (count : Nat)
    (l1 r1 l2 r2 : RxBlk) (s : RxS) (h0 : pdata.length ≠ 0)
    (hp : pdata.length < AUDIO_BLOCK_SAMPLES - count) :
    rcvLoopF (fuel + 1) pdata count l1 r1 l2 r2 s =
      { s with
        incoming_left := some { l1 with data :=
          (copy_to_buffers_4ch pdata l1.data r1.data l2.data r2.data).1 },
        incoming_right := some { r1 with data :=
          (copy_to_buffers_4ch pdata l1.data r1.data l2.data r2.data).2.1 },
        incoming_left2 := some { l2 with data :=
          (copy_to_buffers_4ch pdata l1.data r1.data l2.data r2.data).2.2.1 },
        incoming_right2 := some { r2 with data :=
          (copy_to_buffers_4ch pdata l1.data r1.data l2.data r2.data).2.2.2 },
        incoming_count := count + pdata.length } := by
  simp only [rcvLoopF]
  rw [if_neg h0, if_pos hp]

theorem rcvLoopF_exact_overrun (fuel : Nat) (pdata : List (Nat × Nat)) (count : Nat)
    (l1 r1 l2 r2 : RxBlk) (s : RxS)
    (hcnt : count < AUDIO_BLOCK_SAMPLES)
    (hlen : AUDIO_BLOCK_SAMPLES - count ≤ pdata.length)
    (hrdy : (s.ready_left.isSome || s.ready_right.isSome ||
      s.ready_left2.isSome || s.ready_right2.isSome) = true) :
    rcvLoopF (fuel + 1) pdata count l1 r1 l2 r2 s =
      { s with
        incoming_left := some { l1 with data :=
          (copy_to_buffers_4ch (pdata.take (AUDIO_BLOCK_SAMPLES - count))
            l1.data r1.data l2.data r2.data).1 },
        incoming_right := some { r1 with data :=
          (copy_to_buffers_4ch (pdata.take (AUDIO_BLOCK_SAMPLES - count))
            l1.data r1.data l2.data r2.data).2.1 },
        incoming_left2 := some { l2 with data :=
          (copy_to_buffers_4ch (pdata.take (AUDIO_BLOCK_SAMPLES - count))
            l1.data r1.data l2.data r2.data).2.2.1 },
        incoming_right2 := some { r2 with data :=
          (copy_to_buffers_4ch (pdata.take (AUDIO_BLOCK_SAMPLES - count))
            l1.data r1.data l2.data r2.data).2.2.2 },
        incoming_count := count + (AUDIO_BLOCK_SAMPLES - count),
        overrun_count := s.overrun_count +
          (if 0 < (pdata.drop (AUDIO_BLOCK_SAMPLES - count)).length then 1 else 0) } := by
  simp only [rcvLoopF]
  rw [if_neg (by omega), if_neg (by omega), if_pos (by omega), if_pos hrdy]

theorem rcvLoopF_publish_ok (fuel : Nat) (pdata : List (Nat × Nat)) (count : Nat)
    (l1 r1 l2 r2 : RxBlk) (s : RxS)
    (hcnt : count < AUDIO_BLOCK_SAMPLES)
    (hlen : AUDIO_BLOCK_SAMPLES - count ≤ pdata.length)
    (hrdy : (s.ready_left.isSome || s.ready_right.isSome ||
      s.ready_left2.isSome || s.ready_right2.isSome) = false)
    (hok : ∀ j, j < 4 → s.pool.fails (s.pool.next + j) = false) :
    rcvLoopF (fuel + 1) pdata count l1 r1 l2 r2 s =
      rcvLoopF fuel (pdata.drop (AUDIO_BLOCK_SAMPLES - count)) 0
        ⟨s.pool.next, []⟩ ⟨s.pool.next + 1, []⟩
        ⟨s.pool.next + 2, []⟩ ⟨s.pool.next + 3, []⟩
        { s with
          ready_left := some { l1 with data :=
            (copy_to_buffers_4ch (pdata.take (AUDIO_BLOCK_SAMPLES - count))
              l1.data r1.data l2.data r2.data).1 },
          ready_right := some { r1 with data :=
            (copy_to_buffers_4ch (pdata.take (AUDIO_BLOCK_SAMPLES - count))
              l1.data r1.data l2.data r2.data).2.1 },
          ready_left2 := some { l2 with data :=
            (copy_to_buffers_4ch (pdata.take (AUDIO_BLOCK_SAMPLES - count))
              l1.data r1.data l2.data r2.data).2.2.1 },
          ready_right2 := some { r2 with data :=
            (copy_to_buffers_4ch (pdata.take (AUDIO_BLOCK_SAMPLES - count))
              l1.data r1.data l2.data r2.data).2.2.2 },
          pool := ⟨s.pool.next + 4, s.pool.fails⟩,
          incoming_left := some ⟨s.pool.next, []⟩,
          incoming_right := some ⟨s.pool.next + 1, []⟩,
          incoming_left2 := some ⟨s.pool.next + 2, []⟩,
          incoming_right2 := some ⟨s.pool.next + 3, []⟩ } := by
  have hf0 : s.pool.fails s.pool.next = false := hok 0 (by omega)
  have hf1 : s.pool.fails (s.pool.next + 1) = false := hok 1 (by omega)
  have hf2 : s.pool.fails (s.pool.next + 1 + 1) = false := hok 2 (by omega)
  have hf3 : s.pool.fails (s.pool.next + 1 + 1 + 1) = false := hok 3 (by omega)
  simp only [rcvLoopF]
  rw [if_neg (by omega), if_neg (by omega), if_pos (by omega),
    if_neg (by rw [hrdy]; simp)]
  simp only [RxPool.alloc, hf0, hf1, hf2, hf3, Bool.false_eq_true, if_false]

theorem rcvLoopF_publish_fail (fuel : Nat) (pdata : List (Nat × Nat)) (count : Nat)
    (l1 r1 l2 r2 : RxBlk) (s : RxS) (k : Nat) (hk : k < 4)
    (hcnt : count < AUDIO_BLOCK_SAMPLES)
    (hlen : AUDIO_BLOCK_SAMPLES - count ≤ pdata.length)
    (hrdy : (s.ready_left.isSome || s.ready_right.isSome ||
      s.ready_left2.isSome || s.ready_right2.isSome) = false)
    (hsucc : ∀ j, j < k → s.pool.fails (s.pool.next + j) = false)
    (hfailk : s.pool.fails (s.pool.next + k) = true) :
    rcvLoopF (fuel + 1) pdata count l1 r1 l2 r2 s =
      { s with
        ready_left := some { l1 with data :=
          (copy_to_buffers_4ch (pdata.take (AUDIO_BLOCK_SAMPLES - count))
            l1.data r1.data l2.data r2.data).1 },
        ready_right := some { r1 with data :=
          (copy_to_buffers_4ch (pdata.take (AUDIO_BLOCK_SAMPLES - count))
            l1.data r1.data l2.data r2.data).2.1 },
        ready_left2 := some { l2 with data :=
          (copy_to_buffers_4ch (pdata.take (AUDIO_BLOCK_SAMPLES - count))
            l1.data r1.data l2.data r2.data).2.2.1 },
        ready_right2 := some { r2 with data :=
          (copy_to_buffers_4ch (pdata.take (AUDIO_BLOCK_SAMPLES - count))
            l1.data r1.data l2.data r2.data).2.2.2 },
        incoming_left := none, incoming_right := none,
        incoming_left2 := none, incoming_right2 := none,
        incoming_count := 0,
        pool := ⟨s.pool.next + k + 1, s.pool.fails⟩,
        released := s.released ++ (List.range k).map (fun j => s.pool.next + j) } := by
  simp only [rcvLoopF]
  rw [if_neg (by omega), if_neg (by omega), if_pos (by omega),
    if_neg (by rw [hrdy]; simp)]
  interval_cases k
  · have hf0 : s.pool.fails s.pool.next = true := hfailk
    simp only [RxPool.alloc, hf0, if_true]
    simp
  · have hf0 : s.pool.fails s.pool.next = false := hsucc 0 (by omega)
    have hf1 : s.pool.fails (s.pool.next + 1) = true := hfailk
    simp only [RxPool.alloc, hf0, hf1, Bool.false_eq_true, if_false, if_true]
    rw [show List.range 1 = [0] from rfl]
    simp
  · have hf0 : s.pool.fails s.pool.next = false := hsucc 0 (by omega)
    have hf1 : s.pool.fails (s.pool.next + 1) = false := hsucc 1 (by omega)
    have hf2 : s.pool.fails (s.pool.next + 1 + 1) = true := hfailk
    simp only [RxPool.alloc, hf0, hf1, hf2, Bool.false_eq_true, if_false, if_true]
    simp [List.range_succ]
  · have hf0 : s.pool.fails s.pool.next = false := hsucc 0 (by omega)
    have hf1 : s.pool.fails (s.pool.next + 1) = false := hsucc 1 (by omega)
    have hf2 : s.pool.fails (s.pool.next + 1 + 1) = false := hsucc 2 (by omega)
    have hf3 : s.pool.fails (s.pool.next + 1 + 1 + 1) = true := hfailk
    simp only [RxPool.alloc, hf0, hf1, hf2, hf3, Bool.false_eq_true, if_false, if_true]
    simp [List.range_succ]

theorem rcvLoopF_full_ready (fuel : Nat) (pdata : List (Nat × Nat)) (count : Nat)
    (l1 r1 l2 r2 : RxBlk) (s : RxS)
    (h0 : pdata.length ≠ 0) (hcnt : AUDIO_BLOCK_SAMPLES ≤ count)
    (hrdy : (s.ready_left.isSome || s.ready_right.isSome ||
      s.ready_left2.isSome || s.ready_right2.isSome) = true) :
    rcvLoopF (fuel + 1) pdata count l1 r1 l2 r2 s =
      { s with incoming_left := some l1, incoming_right := some r1,
               incoming_left2 := some l2, incoming_right2 := some r2 } := by
  simp only [rcvLoopF]
  rw [if_neg h0, if_neg (by omega), if_neg (by omega), if_pos hrdy]

theorem rcvLoopF_full_publish_ok (fuel : Nat) (pdata : List (Nat × Nat)) (count : Nat)
    (l1 r1 l2 r2 : RxBlk) (s : RxS)
    (h0 : pdata.length ≠ 0) (hcnt : AUDIO_BLOCK_SAMPLES ≤ count)
    (hrdy : (s.ready_left.isSome || s.ready_right.isSome ||
      s.ready_left2.isSome || s.ready_right2.isSome) = false)
    (hok : ∀ j, j < 4 → s.pool.fails (s.pool.next + j) = false) :
    rcvLoopF (fuel + 1) pdata count l1 r1 l2 r2 s =
      rcvLoopF fuel pdata 0
        ⟨s.pool.next, []⟩ ⟨s.pool.next + 1, []⟩
        ⟨s.pool.next + 2, []⟩ ⟨s.pool.next + 3, []⟩
        { s with
          ready_left := some l1, ready_right := some r1,
          ready_left2 := some l2, ready_right2 := some r2,
          pool := ⟨s.pool.next + 4, s.pool.fails⟩,
          incoming_left := some ⟨s.pool.next, []⟩,
          incoming_right := some ⟨s.pool.next + 1, []⟩,
          incoming_left2 := some ⟨s.pool.next + 2, []⟩,
          incoming_right2 := some ⟨s.pool.next + 3, []⟩ } := by
  have hf0 : s.pool.fails s.pool.next = false := hok 0 (by omega)
  have hf1 : s.pool.fails (s.pool.next + 1) = false := hok 1 (by omega)
  have hf2 : s.pool.fails (s.pool.next + 1 + 1) = false := hok 2 (by omega)
  have hf3 : s.pool.fails (s.pool.next + 1 + 1 + 1) = false := hok 3 (by omega)
  simp only [rcvLoopF]
  rw [if_neg h0, if_neg (by omega), if_neg (by omega),
    if_neg (by rw [hrdy]; simp)]
  simp only [RxPool.alloc, hf0, hf1, hf2, hf3, Bool.false_eq_true, if_false]

/-- Claim C2 as amended: when the incoming 4-channel set fills exactly
(consuming avail = AUDIO_BLOCK_SAMPLES - incoming_count samples of the
packet) while the ready mailbox is already occupied, the ready mailbox is
left UNCHANGED — it keeps the oldest unread set — while the newly filled
set stays in the incoming slots with incoming_count = AUDIO_BLOCK_SAMPLES;
the residual packet samples beyond the fill are discarded (drop-newest, not
drop-oldest), usb_audio_overrun_count is incremented by exactly 1 if and
only if such residual samples exist, and the call neither allocates nor
releases any block.  Consequently, if the mailbox is never drained it goes
on holding the FIRST completed set, not the most recent one. -/
theorem c2_rx_overrun_amended (s : RxS) (packet : List (Nat × Nat))
    (b1 b2 b3 b4 : RxBlk)
    (h1 : s.incoming_left = some b1) (h2 : s.incoming_right = some b2)
    (h3 : s.incoming_left2 = some b3) (h4 : s.incoming_right2 = some b4)
    (hrdy : s.ready_left.isSome = true ∨ s.ready_right.isSome = true ∨
      s.ready_left2.isSome = true ∨ s.ready_right2.isSome = true)
    (hcnt : s.incoming_count < AUDIO_BLOCK_SAMPLES)
    (hlen : AUDIO_BLOCK_SAMPLES - s.incoming_count ≤ packet.length) :
    (usb_audio_receive_callback packet s).ready_left = s.ready_left ∧
    (usb_audio_receive_callback packet s).ready_right = s.ready_right ∧
    (usb_audio_receive_callback packet s).ready_left2 = s.ready_left2 ∧
    (usb_audio_receive_callback packet s).ready_right2 = s.ready_right2 ∧
    (usb_audio_receive_callback packet s).incoming_left =
      some { b1 with data := (copy_to_buffers_4ch
        (packet.take (AUDIO_BLOCK_SAMPLES - s.incoming_count))
        b1.data b2.data b3.data b4.data).1 } ∧
    (usb_audio_receive_callback packet s).incoming_count = AUDIO_BLOCK_SAMPLES ∧
    (usb_audio_receive_callback packet s).overrun_count =
      s.overrun_count +
        (if AUDIO_BLOCK_SAMPLES - s.incoming_count < packet.length then 1 else 0) ∧
    (usb_audio_receive_callback packet s).released = s.released ∧
    (usb_audio_receive_callback packet s).pool = s.pool := by
  have hready : (({ s with receive_flag := true } : RxS).ready_left.isSome ||
      ({ s with receive_flag := true } : RxS).ready_right.isSome ||
      ({ s with receive_flag := true } : RxS).ready_left2.isSome ||
      ({ s with receive_flag := true } : RxS).ready_right2.isSome) = true := by
    show (s.ready_left.isSome || s.ready_right.isSome ||
      s.ready_left2.isSome || s.ready_right2.isSome) = true
    rcases hrdy with h | h | h | h <;> simp [h]
  have hstate := rcvLoopF_exact_overrun (packet.length + 1) packet s.incoming_count
    b1 b2 b3 b4 { s with receive_flag := true } hcnt hlen hready
  rw [rcv_all_some packet s b1 b2 b3 b4 h1 h2 h3 h4,
    show packet.length + 2 = (packet.length + 1) + 1 from rfl, hstate]
  refine ⟨rfl, rfl, rfl, rfl, rfl, by show _ + _ = _; omega, ?_, rfl, rfl⟩
  show s.overrun_count + _ = s.overrun_count + _
  congr 1
  rw [List.length_drop]
  have hiff : (0 < packet.length - (AUDIO_BLOCK_SAMPLES - s.incoming_count)) ↔
      (AUDIO_BLOCK_SAMPLES - s.incoming_count < packet.length) := by omega
  simp only [hiff]

/-- Concrete instantiation data for the amended C2 theorem: incoming set
filled to 120 samples, occupied mailbox, and a 10-sample packet. -/
def c2wS : RxS :=
  { incoming_left := some ⟨4, List.replicate 120 3⟩,
    incoming_right := some ⟨5, List.replicate 120 3⟩,
    incoming_left2 := some ⟨6, List.replicate 120 3⟩,
    incoming_right2 := some ⟨7, List.replicate 120 3⟩,
    ready_left := some ⟨0, List.replicate 128 7⟩,
    ready_right := some ⟨1, List.replicate 128 7⟩,
    ready_left2 := some ⟨2, List.replicate 128 7⟩,
    ready_right2 := some ⟨3, List.replicate 128 7⟩,
    incoming_count := 120, receive_flag := false,
    overrun_count := 0, underrun_count := 0,
    feedback_accumulator := 739875226,
    pool := ⟨8, fun _ => false⟩, released := [] }

/-- Packet used by the C2 witness: 10 samples. -/
def c2wP : List (Nat × Nat) := (List.range 10).map (fun i => (i, i))

theorem c2_rx_overrun_amended_witness :
    c2wS.incoming_left = some ⟨4, List.replicate 120 3⟩ ∧
    (c2wS.ready_left.isSome = true ∨ c2wS.ready_right.isSome = true ∨
      c2wS.ready_left2.isSome = true ∨ c2wS.ready_right2.isSome = true) ∧
    c2wS.incoming_count < AUDIO_BLOCK_SAMPLES ∧
    AUDIO_BLOCK_SAMPLES - c2wS.incoming_count ≤ c2wP.length ∧
    ((usb_audio_receive_callback c2wP c2wS).ready_left = c2wS.ready_left ∧
     (usb_audio_receive_callback c2wP c2wS).ready_right = c2wS.ready_right ∧
     (usb_audio_receive_callback c2wP c2wS).ready_left2 = c2wS.ready_left2 ∧
     (usb_audio_receive_callback c2wP c2wS).ready_right2 = c2wS.ready_right2 ∧
     (usb_audio_receive_callback c2wP c2wS).incoming_left =
       some { (⟨4, List.replicate 120 3⟩ : RxBlk) with data := (copy_to_buffers_4ch
         (c2wP.take (AUDIO_BLOCK_SAMPLES - c2wS.incoming_count))
         (List.replicate 120 3) (List.replicate 120 3)
         (List.replicate 120 3) (List.replicate 120 3)).1 } ∧
     (usb_audio_receive_callback c2wP c2wS).incoming_count = AUDIO_BLOCK_SAMPLES ∧
     (usb_audio_receive_callback c2wP c2wS).overrun_count =
       c2wS.overrun_count +
         (if AUDIO_BLOCK_SAMPLES - c2wS.incoming_count < c2wP.length then 1 else 0) ∧
     (usb_audio_receive_callback c2wP c2wS).released = c2wS.released ∧
     (usb_audio_receive_callback c2wP c2wS).pool = c2wS.pool) :=
  ⟨rfl, Or.inl rfl, by decide, by decide,
    c2_rx_overrun_amended c2wS c2wP ⟨4, List.replicate 120 3⟩
      ⟨5, List.replicate 120 3⟩ ⟨6, List.replicate 120 3⟩ ⟨7, List.replicate 120 3⟩
      rfl rfl rfl rfl (Or.inl rfl) (by decide) (by decide)⟩

/-- A post-begin receive state whose pool fails on the second allocation
call (identifier 1): the initial fill-in chain acquires incoming_left and
then fails on incoming_right. -/
def c6cexS : RxS :=
  { incoming_left := none, incoming_right := none,
    incoming_left2 := none, incoming_right2 := none,
    ready_left := none, ready_right := none,
    ready_left2 := none, ready_right2 := none,
    incoming_count := 0, receive_flag := false,
    overrun_count := 0, underrun_count := 0,
    feedback_accumulator := 739875226,
    pool := ⟨0, fun n => n == 1⟩, released := [] }

/-- Counterexample to claim C6: in the initial fill-in chain (lines 176-195
of usb_audio.cpp), a partial allocation failure does NOT release the
already-acquired siblings and DOES leave a half-populated incoming slot
set: after the call, incoming_left holds the freshly allocated block while
incoming_right is null, and nothing was released. -/
theorem c6_counterexample :
    (usb_audio_receive_callback [(5, 5)] c6cexS).incoming_left = some ⟨0, []⟩ ∧
    (usb_audio_receive_callback [(5, 5)] c6cexS).incoming_right = none ∧
    (usb_audio_receive_callback [(5, 5)] c6cexS).released = [] := by
  refine ⟨?_, ?_, ?_⟩ <;> decide

/-- Claim C6 as amended: the all-or-none rollback holds for the post-publish
re-allocation chain (lines 225-266), not for the initial fill-in chain.
When a completed set has just been published and the k-th allocation of the
replacement chain fails (k = 0..3), every sibling acquired earlier in that
chain is released (identifiers next..next+k-1, in allocation order), all
four incoming slots are set to null and incoming_count to 0, so the
callback returns with the incoming slot set empty, never partially owned;
the published set sits in the ready mailbox.  In the initial fill-in chain,
by contrast, a partial failure stores the blocks acquired so far in their
slots and returns silently — nothing is released and nothing leaked, but
the slot set may be left partially populated (see the counterexample). -/
theorem c6_rollback_amended (s : RxS) (packet : List (Nat × Nat))
    (b1 b2 b3 b4 : RxBlk) (k : Nat) (hk : k < 4)
    (h1 : s.incoming_left = some b1) (h2 : s.incoming_right = some b2)
    (h3 : s.incoming_left2 = some b3) (h4 : s.incoming_right2 = some b4)
    (hr1 : s.ready_left = none) (hr2 : s.ready_right = none)
    (hr3 : s.ready_left2 = none) (hr4 : s.ready_right2 = none)
    (hcnt : s.incoming_count < AUDIO_BLOCK_SAMPLES)
    (hlen : AUDIO_BLOCK_SAMPLES - s.incoming_count ≤ packet.length)
    (hsucc : ∀ j, j < k → s.pool.fails (s.pool.next + j) = false)
    (hfailk : s.pool.fails (s.pool.next + k) = true) :
    (usb_audio_receive_callback packet s).incoming_left = none ∧
    (usb_audio_receive_callback packet s).incoming_right = none ∧
    (usb_audio_receive_callback packet s).incoming_left2 = none ∧
    (usb_audio_receive_callback packet s).incoming_right2 = none ∧
    (usb_audio_receive_callback packet s).incoming_count = 0 ∧
    (usb_audio_receive_callback packet s).released =
      s.released ++ (List.range k).map (fun j => s.pool.next + j) ∧
    (usb_audio_receive_callback packet s).ready_left =
      some { b1 with data := (copy_to_buffers_4ch
        (packet.take (AUDIO_BLOCK_SAMPLES - s.incoming_count))
        b1.data b2.data b3.data b4.data).1 } ∧
    (usb_audio_receive_callback packet s).pool.next = s.pool.next + k + 1 := by
  have hready : (({ s with receive_flag := true } : RxS).ready_left.isSome ||
      ({ s with receive_flag := true } : RxS).ready_right.isSome ||
      ({ s with receive_flag := true } : RxS).ready_left2.isSome ||
      ({ s with receive_flag := true } : RxS).ready_right2.isSome) = false := by
    show (s.ready_left.isSome || s.ready_right.isSome ||
      s.ready_left2.isSome || s.ready_right2.isSome) = false
    rw [hr1, hr2, hr3, hr4]
    rfl
  have hstate := rcvLoopF_publish_fail (packet.length + 1) packet s.incoming_count
    b1 b2 b3 b4 { s with receive_flag := true } k hk hcnt hlen hready hsucc hfailk
  rw [rcv_all_some packet s b1 b2 b3 b4 h1 h2 h3 h4,
    show packet.length + 2 = (packet.length + 1) + 1 from rfl, hstate]
  exact ⟨rfl, rfl, rfl, rfl, rfl, rfl, rfl, rfl⟩

/-- Concrete instantiation data for the amended C6 theorem: a full set about
to publish, empty mailbox, and a pool that fails on its second allocation
(k = 1). -/
def c6wS : RxS :=
  { incoming_left := some ⟨4, List.replicate 120 3⟩,
    incoming_right := some ⟨5, List.replicate 120 3⟩,
    incoming_left2 := some ⟨6, List.replicate 120 3⟩,
    incoming_right2 := some ⟨7, List.replicate 120 3⟩,
    ready_left := none, ready_right := none,
    ready_left2 := none, ready_right2 := none,
    incoming_count := 120, receive_flag := false,
    overrun_count := 0, underrun_count := 0,
    feedback_accumulator := 739875226,
    pool := ⟨8, fun n => n == 9⟩, released := [] }

theorem c6_rollback_amended_witness :
    (1 : Nat) < 4 ∧
    c6wS.incoming_left = some ⟨4, List.replicate 120 3⟩ ∧
    c6wS.ready_left = none ∧
    c6wS.incoming_count < AUDIO_BLOCK_SAMPLES ∧
    AUDIO_BLOCK_SAMPLES - c6wS.incoming_count ≤ c2wP.length ∧
    c6wS.pool.fails (c6wS.pool.next + 1) = true ∧
    ((usb_audio_receive_callback c2wP c6wS).incoming_left = none ∧
     (usb_audio_receive_callback c2wP c6wS).incoming_right = none ∧
     (usb_audio_receive_callback c2wP c6wS).incoming_left2 = none ∧
     (usb_audio_receive_callback c2wP c6wS).incoming_right2 = none ∧
     (usb_audio_receive_callback c2wP c6wS).incoming_count = 0 ∧
     (usb_audio_receive_callback c2wP c6wS).released =
       c6wS.released ++ (List.range 1).map (fun j => c6wS.pool.next + j) ∧
     (usb_audio_receive_callback c2wP c6wS).ready_left =
       some { (⟨4, List.replicate 120 3⟩ : RxBlk) with data := (copy_to_buffers_4ch
         (c2wP.take (AUDIO_BLOCK_SAMPLES - c6wS.incoming_count))
         (List.replicate 120 3) (List.replicate 120 3)
         (List.replicate 120 3) (List.replicate 120 3)).1 } ∧
     (usb_audio_receive_callback c2wP c6wS).pool.next = c6wS.pool.next + 1 + 1) :=
  ⟨by decide, rfl, rfl, by decide, by decide, by decide,
    c6_rollback_amended c6wS c2wP ⟨4, List.replicate 120 3⟩
      ⟨5, List.replicate 120 3⟩ ⟨6, List.replicate 120 3⟩ ⟨7, List.replicate 120 3⟩
      1 (by decide) rfl rfl rfl rfl rfl rfl rfl rfl (by decide) (by decide)
      (by intro j hj; interval_cases j; decide) (by decide)⟩

/-! ## Feedback rate controller (claim C8) -/

/-- Counterexample to claim C8: two single-cycle runs that both satisfy the
claim's conditions (packet received since last update, some ready channel
null) but observe different incoming_count values produce different
accumulator increments (3564 vs 3554), so there is no fixed per-cycle delta
d with total increase = K * d: the per-cycle increment is
3500 + AUDIO_BLOCK_SAMPLES/2 - incoming_count, which depends on
incoming_count. -/
theorem c8_counterexample :
    input_update_feedback 1000000 0 true true - 1000000 ≠
      input_update_feedback 1000000 10 true true - 1000000 := by
  decide

/-- A run of K consecutive AudioInputUSB::update cycles, each with
receive_flag set and an underrun observed (some ready channel null), the
i-th cycle reading incoming_count = cs[i]; only the feedback accumulator is
threaded between cycles (the receive callbacks that set receive_flag and
incoming_count between updates never touch the accumulator). -/
def feedbackRun (cs : List Nat) (fb0 : Nat) : Nat :=
  cs.foldl (fun fb c => input_update_feedback fb c true true) fb0

theorem input_update_feedback_underrun (fb c : Nat)
    (hc : c ≤ AUDIO_BLOCK_SAMPLES) (hfb : AUDIO_BLOCK_SAMPLES ≤ fb)
    (hov : fb + 3564 < 2 ^ 32) :
    input_update_feedback fb c true true = fb + 3564 - c := by
  unfold input_update_feedback
  norm_num [AUDIO_BLOCK_SAMPLES] at hc hfb hov ⊢
  have he : ((fb : Int) + 64 - (c : Int)).emod 4294967296 = (fb : Int) + 64 - c :=
    Int.emod_eq_of_lt (by omega) (by omega)
  rw [he]
  omega

theorem feedbackRun_formula :
    ∀ (cs : List Nat) (fb0 : Nat),
      (∀ c ∈ cs, c ≤ AUDIO_BLOCK_SAMPLES) → AUDIO_BLOCK_SAMPLES ≤ fb0 →
      fb0 + 3564 * cs.length < 2 ^ 32 →
      feedbackRun cs fb0 = fb0 + 3564 * cs.length - cs.sum := by
  intro cs
  induction cs with
  | nil => intro fb0 _ _ _; simp [feedbackRun]
  | cons c rest ih =>
      intro fb0 hc hfb hov
      have h128 : AUDIO_BLOCK_SAMPLES = 128 := rfl
      have hsum : rest.sum ≤ 128 * rest.length := by
        have h := List.sum_le_card_nsmul rest AUDIO_BLOCK_SAMPLES
          (fun x hx => hc x (List.mem_cons_of_mem c hx))
        rw [h128] at h
        simpa [Nat.mul_comm] using h
      have hcle : c ≤ 128 := h128 ▸ hc c (List.mem_cons_self c rest)
      have hfb128 : 128 ≤ fb0 := h128 ▸ hfb
      have hstep : input_update_feedback fb0 c true true = fb0 + 3564 - c :=
        input_update_feedback_underrun fb0 c (hc c (List.mem_cons_self c rest)) hfb
          (by simp only [List.length_cons] at hov; omega)
      have hrest := ih (fb0 + 3564 - c)
        (fun x hx => hc x (List.mem_cons_of_mem c hx))
        (by rw [h128]; omega)
        (by simp only [List.length_cons] at hov; omega)
      show feedbackRun rest (input_update_feedback fb0 c true true) = _
      rw [hstep, hrest]
      simp only [List.length_cons, List.sum_cons]
      omega

/-- Claim C8 as amended: the feedback arithmetic of AudioInputUSB::update is
exactly input_update_feedback (first conjunct); and for a run of K
consecutive update cycles each observing a sustained underrun signal (some
ready channel null, a packet received since the last update), with
incoming_count values cs[i] ≤ AUDIO_BLOCK_SAMPLES and no uint32 wraparound
within the run, the accumulator strictly increases at every cycle — by
3500 + AUDIO_BLOCK_SAMPLES/2 - cs[i], a value between 3436 and 3564 that is
NOT a fixed constant — and the total increase over the K cycles is
3564 * K - sum(cs), i.e. K*3500 plus K*64 minus the sum of the observed
counts. -/
theorem c8_feedback_amended (cs : List Nat) (fb0 : Nat)
    (hc : ∀ c ∈ cs, c ≤ AUDIO_BLOCK_SAMPLES)
    (hfb : AUDIO_BLOCK_SAMPLES ≤ fb0)
    (hov : fb0 + 3564 * cs.length < 2 ^ 32) :
    (∀ s : RxS, ((AudioInputUSB_update s).1).feedback_accumulator =
      input_update_feedback s.feedback_accumulator s.incoming_count s.receive_flag
        (s.ready_left.isNone || s.ready_right.isNone ||
          s.ready_left2.isNone || s.ready_right2.isNone)) ∧
    feedbackRun cs fb0 = fb0 + 3564 * cs.length - cs.sum ∧
    (∀ n, n < cs.length →
      feedbackRun (cs.take n) fb0 < feedbackRun (cs.take (n + 1)) fb0) ∧
    (cs ≠ [] → fb0 < feedbackRun cs fb0) ∧
    feedbackRun cs fb0 < 2 ^ 32 := by
  have h128 : AUDIO_BLOCK_SAMPLES = 128 := rfl
  have hsumle : ∀ (l : List Nat), (∀ c ∈ l, c ≤ AUDIO_BLOCK_SAMPLES) →
      l.sum ≤ 128 * l.length := by
    intro l hl
    have h := List.sum_le_card_nsmul l AUDIO_BLOCK_SAMPLES hl
    rw [h128] at h
    simpa [Nat.mul_comm] using h
  have htake : ∀ n, feedbackRun (cs.take n) fb0 =
      fb0 + 3564 * (cs.take n).length - (cs.take n).sum := by
    intro n
    apply feedbackRun_formula (cs.take n) fb0
      (fun x hx => hc x (List.mem_of_mem_take hx)) hfb
    have : (cs.take n).length ≤ cs.length := by
      rw [List.length_take]; omega
    omega
  refine ⟨fun s => rfl, feedbackRun_formula cs fb0 hc hfb hov, ?_, ?_, ?_⟩
  · intro n hn
    rw [htake n, htake (n + 1)]
    have hlt : (cs.take n).length = n := List.length_take_of_le (by omega)
    have hlt2 : (cs.take (n + 1)).length = n + 1 := List.length_take_of_le (by omega)
    have hsum1 : (cs.take (n + 1)).sum = (cs.take n).sum + cs.get ⟨n, hn⟩ :=
      List.sum_take_succ cs n hn
    have hcn : cs.get ⟨n, hn⟩ ≤ 128 := h128 ▸ hc _ (List.get_mem cs n hn)
    have hsn : (cs.take n).sum ≤ 128 * n := by
      have := hsumle (cs.take n) (fun x hx => hc x (List.mem_of_mem_take hx))
      rw [hlt] at this
      exact this
    have hfb128 : 128 ≤ fb0 := h128 ▸ hfb
    rw [hlt, hlt2, hsum1]
    have hlen : n + 1 ≤ cs.length := hn
    omega
  · intro hne
    rw [feedbackRun_formula cs fb0 hc hfb hov]
    have hsn := hsumle cs hc
    have hfb128 : 128 ≤ fb0 := h128 ▸ hfb
    have hlen : 1 ≤ cs.length := by
      cases cs
      · exact absurd rfl hne
      · simp
    omega
  · rw [feedbackRun_formula cs fb0 hc hfb hov]
    omega

theorem c8_feedback_amended_witness :
    (∀ c ∈ ([0, 64, 128] : List Nat), c ≤ AUDIO_BLOCK_SAMPLES) ∧
    AUDIO_BLOCK_SAMPLES ≤ 739875226 ∧
    739875226 + 3564 * ([0, 64, 128] : List Nat).length < 2 ^ 32 ∧
    feedbackRun [0, 64, 128] 739875226 =
      739875226 + 3564 * ([0, 64, 128] : List Nat).length -
        ([0, 64, 128] : List Nat).sum :=
  ⟨by decide, by decide, by decide,
    (c8_feedback_amended [0, 64, 128] 739875226 (by decide) (by decide)
      (by decide)).2.1⟩

/-! ## USB RX reassembly (claim C7)

A continuous interleaved stream is a list of samples, each the pair of the
two 32-bit words the hardware delivers; the de-interleaved per-channel
sequences are the four projections below, matching the 16-bit extraction
of copy_to_buffers_4ch.  A run processes a list of packets, invoking
usb_audio_receive_callback once per packet and draining the ready mailbox
with AudioInputUSB::update after each call (the claim assumes the mailbox
is drained between block completions); the drained quadruples are
collected, and the deposited per-channel sequence of a run is the
concatenation of the drained blocks' data followed by the data currently
sitting in the incoming block. -/

/-- Channel 0 (left1) of the de-interleaved stream. -/
def streamL1 (str : List (Nat × Nat)) : List Nat := str.map (fun w => w.1 &&& 0xFFFF)

/-- Channel 1 (right1) of the de-interleaved stream. -/
def streamR1 (str : List (Nat × Nat)) : List Nat :=
  str.map (fun w => (w.1 >>> 16) &&& 0xFFFF)

/-- Channel 2 (left2) of the de-interleaved stream. -/
def streamL2 (str : List (Nat × Nat)) : List Nat := str.map (fun w => w.2 &&& 0xFFFF)

/-- Channel 3 (right2) of the de-interleaved stream. -/
def streamR2 (str : List (Nat × Nat)) : List Nat :=
  str.map (fun w => (w.2 >>> 16) &&& 0xFFFF)

theorem copy_to_buffers_4ch_spec :
    ∀ (src : List (Nat × Nat)) (l1 r1 l2 r2 : List Nat),
      copy_to_buffers_4ch src l1 r1 l2 r2 =
        (l1 ++ streamL1 src, r1 ++ streamR1 src, l2 ++ streamL2 src, r2 ++ streamR2 src) := by
  intro src
  induction src with
  | nil => intro l1 r1 l2 r2; simp [copy_to_buffers_4ch, streamL1, streamR1, streamL2, streamR2]
  | cons w rest ih =>
      intro l1 r1 l2 r2
      obtain ⟨n1, n2⟩ := w
      show copy_to_buffers_4ch rest (l1 ++ [n1 &&& 0xFFFF]) (r1 ++ [(n1 >>> 16) &&& 0xFFFF])
        (l2 ++ [n2 &&& 0xFFFF]) (r2 ++ [(n2 >>> 16) &&& 0xFFFF]) = _
      rw [ih]
      simp [streamL1, streamR1, streamL2, streamR2]

/-- The projection of an optional block onto its sample data. -/
def optData : Option RxBlk → List Nat
  | none => []
  | some b => b.data

/-- Process a list of packets: one receive callback per packet, each
followed by a cooperative AudioInputUSB::update that drains the mailbox;
returns the final state and the chronological list of drained quadruples. -/
def runPackets : List (List (Nat × Nat)) → RxS →
    RxS × List (Option RxBlk × Option RxBlk × Option RxBlk × Option RxBlk)
  | [], s => (s, [])
  | p :: rest, s =>
      let s1 := usb_audio_receive_callback p s
      let su := AudioInputUSB_update s1
      let r := runPackets rest su.1
      (r.1, su.2 :: r.2)

/-- Left1 samples drained from the mailbox over a run, in order. -/
def drainedL1 (outs : List (Option RxBlk × Option RxBlk × Option RxBlk × Option RxBlk)) :
    List Nat :=
  (outs.map (fun q => optData q.1)).flatten

/-- Right1 samples drained from the mailbox over a run, in order. -/
def drainedR1 (outs : List (Option RxBlk × Option RxBlk × Option RxBlk × Option RxBlk)) :
    List Nat :=
  (outs.map (fun q => optData q.2.1)).flatten

/-- Left2 samples drained from the mailbox over a run, in order. -/
def drainedL2 (outs : List (Option RxBlk × Option RxBlk × Option RxBlk × Option RxBlk)) :
    List Nat :=
  (outs.map (fun q => optData q.2.2.1)).flatten

/-- Right2 samples drained from the mailbox over a run, in order. -/
def drainedR2 (outs : List (Option RxBlk × Option RxBlk × Option RxBlk × Option RxBlk)) :
    List Nat :=
  (outs.map (fun q => optData q.2.2.2)).flatten

/-- All left1 samples a run has deposited: drained blocks then the samples
sitting in the current incoming block. -/
def depositedL1 (r : RxS × List (Option RxBlk × Option RxBlk × Option RxBlk × Option RxBlk)) :
    List Nat :=
  drainedL1 r.2 ++ optData r.1.incoming_left

/-- All right1 samples a run has deposited. -/
def depositedR1 (r : RxS × List (Option RxBlk × Option RxBlk × Option RxBlk × Option RxBlk)) :
    List Nat :=
  drainedR1 r.2 ++ optData r.1.incoming_right

/-- All left2 samples a run has deposited. -/
def depositedL2 (r : RxS × List (Option RxBlk × Option RxBlk × Option RxBlk × Option RxBlk)) :
    List Nat :=
  drainedL2 r.2 ++ optData r.1.incoming_left2

/-- All right2 samples a run has deposited. -/
def depositedR2 (r : RxS × List (Option RxBlk × Option RxBlk × Option RxBlk × Option RxBlk)) :
    List Nat :=
  drainedR2 r.2 ++ optData r.1.incoming_right2

/-- The states from which the lossless-reassembly argument proceeds: empty
ready mailbox, a pool that never fails, and an incoming slot set that is
either still unallocated (count 0) or complete with every block holding
exactly incoming_count ≤ AUDIO_BLOCK_SAMPLES samples. -/
def RxGood (s : RxS) : Prop :=
  s.ready_left = none ∧ s.ready_right = none ∧
  s.ready_left2 = none ∧ s.ready_right2 = none ∧
  s.pool.fails = (fun _ => false) ∧
  ((s.incoming_left = none ∧ s.incoming_right = none ∧ s.incoming_left2 = none ∧
      s.incoming_right2 = none ∧ s.incoming_count = 0) ∨
    (∃ b1 b2 b3 b4, s.incoming_left = some b1 ∧ s.incoming_right = some b2 ∧
      s.incoming_left2 = some b3 ∧ s.incoming_right2 = some b4 ∧
      b1.data.length = s.incoming_count ∧ b2.data.length = s.incoming_count ∧
      b3.data.length = s.incoming_count ∧ b4.data.length = s.incoming_count ∧
      s.incoming_count ≤ AUDIO_BLOCK_SAMPLES))

theorem rcv_all_none (packet : List (Nat × Nat)) (s : RxS)
    (hn1 : s.incoming_left = none) (hn2 : s.incoming_right = none)
    (hn3 : s.incoming_left2 = none) (hn4 : s.incoming_right2 = none)
    (hpool : s.pool.fails = (fun _ => false)) :
    usb_audio_receive_callback packet s =
      rcvLoopF (packet.length + 2) packet s.incoming_count
        ⟨s.pool.next, []⟩ ⟨s.pool.next + 1, []⟩
        ⟨s.pool.next + 2, []⟩ ⟨s.pool.next + 3, []⟩
        { s with
          receive_flag := true,
          pool := ⟨s.pool.next + 4, s.pool.fails⟩,
          incoming_left := some ⟨s.pool.next, []⟩,
          incoming_right := some ⟨s.pool.next + 1, []⟩,
          incoming_left2 := some ⟨s.pool.next + 2, []⟩,
          incoming_right2 := some ⟨s.pool.next + 3, []⟩ } := by
  unfold usb_audio_receive_callback rcvPhase1B rcvPhase1C rcvPhase1D
  simp only [hn1, hn2, hn3, hn4, RxPool.alloc, hpool, Bool.false_eq_true, if_false]

theorem map_take_append_drop {α β : Type} (f : α → β) (l : List α) (n : Nat) :
    (l.take n).map f ++ (l.drop n).map f = l.map f := by
  rw [← List.map_append, List.take_append_drop]

theorem rcvLoop_good :
    ∀ (fuel : Nat) (pdata : List (Nat × Nat)) (count : Nat)
      (l1 r1 l2 r2 : RxBlk) (s : RxS),
      pdata.length + 2 ≤ fuel →
      l1.data.length = count → r1.data.length = count →
      l2.data.length = count → r2.data.length = count →
      count ≤ AUDIO_BLOCK_SAMPLES → pdata.length ≤ AUDIO_BLOCK_SAMPLES →
      s.ready_left = none → s.ready_right = none →
      s.ready_left2 = none → s.ready_right2 = none →
      s.pool.fails = (fun _ => false) →
      ∃ b1 b2 b3 b4,
        (rcvLoopF fuel pdata count l1 r1 l2 r2 s).incoming_left = some b1 ∧
        (rcvLoopF fuel pdata count l1 r1 l2 r2 s).incoming_right = some b2 ∧
        (rcvLoopF fuel pdata count l1 r1 l2 r2 s).incoming_left2 = some b3 ∧
        (rcvLoopF fuel pdata count l1 r1 l2 r2 s).incoming_right2 = some b4 ∧
        b1.data.length = (rcvLoopF fuel pdata count l1 r1 l2 r2 s).incoming_count ∧
        b2.data.length = (rcvLoopF fuel pdata count l1 r1 l2 r2 s).incoming_count ∧
        b3.data.length = (rcvLoopF fuel pdata count l1 r1 l2 r2 s).incoming_count ∧
        b4.data.length = (rcvLoopF fuel pdata count l1 r1 l2 r2 s).incoming_count ∧
        (rcvLoopF fuel pdata count l1 r1 l2 r2 s).incoming_count ≤ AUDIO_BLOCK_SAMPLES ∧
        (rcvLoopF fuel pdata count l1 r1 l2 r2 s).pool.fails = (fun _ => false) ∧
        optData (rcvLoopF fuel pdata count l1 r1 l2 r2 s).ready_left ++ b1.data =
          l1.data ++ streamL1 pdata ∧
        optData (rcvLoopF fuel pdata count l1 r1 l2 r2 s).ready_right ++ b2.data =
          r1.data ++ streamR1 pdata ∧
        optData (rcvLoopF fuel pdata count l1 r1 l2 r2 s).ready_left2 ++ b3.data =
          l2.data ++ streamL2 pdata ∧
        optData (rcvLoopF fuel pdata count l1 r1 l2 r2 s).ready_right2 ++ b4.data =
          r2.data ++ streamR2 pdata := by
  intro fuel pdata count l1 r1 l2 r2 s hfuel hl1 hr1 hl2 hr2 hcle hple hy1 hy2 hy3 hy4 hpool
  obtain ⟨f, rfl⟩ : ∃ f, fuel = f + 1 := ⟨fuel - 1, by omega⟩
  have hrdyF : (s.ready_left.isSome || s.ready_right.isSome ||
      s.ready_left2.isSome || s.ready_right2.isSome) = false := by
    rw [hy1, hy2, hy3, hy4]; rfl
  have hok : ∀ j, j < 4 → s.pool.fails (s.pool.next + j) = false := by
    intro j _; rw [hpool]
  by_cases h0 : pdata.length = 0
  · obtain rfl : pdata = [] := List.length_eq_zero.mp h0
    rw [rcvLoopF_done f [] count l1 r1 l2 r2 s rfl]
    refine ⟨l1, r1, l2, r2, rfl, rfl, rfl, rfl, hl1, hr1, hl2, hr2, hcle, hpool,
      ?_, ?_, ?_, ?_⟩
    · show optData s.ready_left ++ l1.data = l1.data ++ streamL1 []
      rw [hy1]; simp [optData, streamL1]
    · show optData s.ready_right ++ r1.data = r1.data ++ streamR1 []
      rw [hy2]; simp [optData, streamR1]
    · show optData s.ready_left2 ++ l2.data = l2.data ++ streamL2 []
      rw [hy3]; simp [optData, streamL2]
    · show optData s.ready_right2 ++ r2.data = r2.data ++ streamR2 []
      rw [hy4]; simp [optData, streamR2]
  · by_cases hB : pdata.length < AUDIO_BLOCK_SAMPLES - count
    · rw [rcvLoopF_partial_step f pdata count l1 r1 l2 r2 s h0 hB]
      simp only [copy_to_buffers_4ch_spec]
      refine ⟨_, _, _, _, rfl, rfl, rfl, rfl, ?_, ?_, ?_, ?_, ?_, hpool, ?_, ?_, ?_, ?_⟩
      · show (l1.data ++ streamL1 pdata).length = count + pdata.length
        simp [streamL1, hl1]
      · show (r1.data ++ streamR1 pdata).length = count + pdata.length
        simp [streamR1, hr1]
      · show (l2.data ++ streamL2 pdata).length = count + pdata.length
        simp [streamL2, hl2]
      · show (r2.data ++ streamR2 pdata).length = count + pdata.length
        simp [streamR2, hr2]
      · show count + pdata.length ≤ AUDIO_BLOCK_SAMPLES
        omega
      · show optData s.ready_left ++ (l1.data ++ streamL1 pdata) = l1.data ++ streamL1 pdata
        rw [hy1]; rfl
      · show optData s.ready_right ++ (r1.data ++ streamR1 pdata) = r1.data ++ streamR1 pdata
        rw [hy2]; rfl
      · show optData s.ready_left2 ++ (l2.data ++ streamL2 pdata) = l2.data ++ streamL2 pdata
        rw [hy3]; rfl
      · show optData s.ready_right2 ++ (r2.data ++ streamR2 pdata) = r2.data ++ streamR2 pdata
        rw [hy4]; rfl
    · by_cases hz : 0 < AUDIO_BLOCK_SAMPLES - count
      · rw [rcvLoopF_publish_ok f pdata count l1 r1 l2 r2 s (by omega) (by omega) hrdyF hok]
        obtain ⟨f2, rfl⟩ : ∃ f2, f = f2 + 1 := ⟨f - 1, by omega⟩
        by_cases hrest : (pdata.drop (AUDIO_BLOCK_SAMPLES - count)).length = 0
        · rw [rcvLoopF_done f2 (pdata.drop (AUDIO_BLOCK_SAMPLES - count)) 0
            ⟨s.pool.next, []⟩ ⟨s.pool.next + 1, []⟩
            ⟨s.pool.next + 2, []⟩ ⟨s.pool.next + 3, []⟩ _ hrest]
          simp only [copy_to_buffers_4ch_spec]
          have htk : pdata.take (AUDIO_BLOCK_SAMPLES - count) = pdata := by
            apply List.take_of_length_le
            rw [List.length_drop] at hrest
            omega
          refine ⟨⟨s.pool.next, []⟩, ⟨s.pool.next + 1, []⟩,
            ⟨s.pool.next + 2, []⟩, ⟨s.pool.next + 3, []⟩,
            rfl, rfl, rfl, rfl, rfl, rfl, rfl, rfl, Nat.zero_le _, hpool,
            ?_, ?_, ?_, ?_⟩
          · show optData (some { l1 with data := l1.data ++ streamL1 (pdata.take (AUDIO_BLOCK_SAMPLES - count)) }) ++ [] =
              l1.data ++ streamL1 pdata
            rw [htk]; simp [optData]
          · show optData (some { r1 with data := r1.data ++ streamR1 (pdata.take (AUDIO_BLOCK_SAMPLES - count)) }) ++ [] =
              r1.data ++ streamR1 pdata
            rw [htk]; simp [optData]
          · show optData (some { l2 with data := l2.data ++ streamL2 (pdata.take (AUDIO_BLOCK_SAMPLES - count)) }) ++ [] =
              l2.data ++ streamL2 pdata
            rw [htk]; simp [optData]
          · show optData (some { r2 with data := r2.data ++ streamR2 (pdata.take (AUDIO_BLOCK_SAMPLES - count)) }) ++ [] =
              r2.data ++ streamR2 pdata
            rw [htk]; simp [optData]
        · rw [rcvLoopF_partial_step f2 (pdata.drop (AUDIO_BLOCK_SAMPLES - count)) 0
            ⟨s.pool.next, []⟩ ⟨s.pool.next + 1, []⟩
            ⟨s.pool.next + 2, []⟩ ⟨s.pool.next + 3, []⟩ _ hrest
            (by rw [List.length_drop]; omega)]
          simp only [copy_to_buffers_4ch_spec]
          refine ⟨_, _, _, _, rfl, rfl, rfl, rfl, ?_, ?_, ?_, ?_, ?_, hpool, ?_, ?_, ?_, ?_⟩
          · show ([] ++ streamL1 (pdata.drop (AUDIO_BLOCK_SAMPLES - count))).length =
              0 + (pdata.drop (AUDIO_BLOCK_SAMPLES - count)).length
            simp [streamL1]
          · show ([] ++ streamR1 (pdata.drop (AUDIO_BLOCK_SAMPLES - count))).length =
              0 + (pdata.drop (AUDIO_BLOCK_SAMPLES - count)).length
            simp [streamR1]
          · show ([] ++ streamL2 (pdata.drop (AUDIO_BLOCK_SAMPLES - count))).length =
              0 + (pdata.drop (AUDIO_BLOCK_SAMPLES - count)).length
            simp [streamL2]
          · show ([] ++ streamR2 (pdata.drop (AUDIO_BLOCK_SAMPLES - count))).length =
              0 + (pdata.drop (AUDIO_BLOCK_SAMPLES - count)).length
            simp [streamR2]
          · show 0 + (pdata.drop (AUDIO_BLOCK_SAMPLES - count)).length ≤ AUDIO_BLOCK_SAMPLES
            rw [List.length_drop]; omega
          · show optData (some { l1 with data := l1.data ++ streamL1 (pdata.take (AUDIO_BLOCK_SAMPLES - count)) }) ++
              ([] ++ streamL1 (pdata.drop (AUDIO_BLOCK_SAMPLES - count))) =
              l1.data ++ streamL1 pdata
            simp only [optData, List.nil_append, List.append_assoc]
            rw [show streamL1 (pdata.take (AUDIO_BLOCK_SAMPLES - count)) ++
                streamL1 (pdata.drop (AUDIO_BLOCK_SAMPLES - count)) = streamL1 pdata from
              map_take_append_drop _ pdata _]
          · show optData (some { r1 with data := r1.data ++ streamR1 (pdata.take (AUDIO_BLOCK_SAMPLES - count)) }) ++
              ([] ++ streamR1 (pdata.drop (AUDIO_BLOCK_SAMPLES - count))) =
              r1.data ++ streamR1 pdata
            simp only [optData, List.nil_append, List.append_assoc]
            rw [show streamR1 (pdata.take (AUDIO_BLOCK_SAMPLES - count)) ++
                streamR1 (pdata.drop (AUDIO_BLOCK_SAMPLES - count)) = streamR1 pdata from
              map_take_append_drop _ pdata _]
          · show optData (some { l2 with data := l2.data ++ streamL2 (pdata.take (AUDIO_BLOCK_SAMPLES - count)) }) ++
              ([] ++ streamL2 (pdata.drop (AUDIO_BLOCK_SAMPLES - count))) =
              l2.data ++ streamL2 pdata
            simp only [optData, List.nil_append, List.append_assoc]
            rw [show streamL2 (pdata.take (AUDIO_BLOCK_SAMPLES - count)) ++
                streamL2 (pdata.drop (AUDIO_BLOCK_SAMPLES - count)) = streamL2 pdata from
              map_take_append_drop _ pdata _]
          · show optData (some { r2 with data := r2.data ++ streamR2 (pdata.take (AUDIO_BLOCK_SAMPLES - count)) }) ++
              ([] ++ streamR2 (pdata.drop (AUDIO_BLOCK_SAMPLES - count))) =
              r2.data ++ streamR2 pdata
            simp only [optData, List.nil_append, List.append_assoc]
            rw [show streamR2 (pdata.take (AUDIO_BLOCK_SAMPLES - count)) ++
                streamR2 (pdata.drop (AUDIO_BLOCK_SAMPLES - count)) = streamR2 pdata from
              map_take_append_drop _ pdata _]
      · rw [rcvLoopF_full_publish_ok f pdata count l1 r1 l2 r2 s h0 (by omega) hrdyF hok]
        obtain ⟨f2, rfl⟩ : ∃ f2, f = f2 + 1 := ⟨f - 1, by omega⟩
        by_cases hp128 : pdata.length < AUDIO_BLOCK_SAMPLES
        · rw [rcvLoopF_partial_step f2 pdata 0
            ⟨s.pool.next, []⟩ ⟨s.pool.next + 1, []⟩
            ⟨s.pool.next + 2, []⟩ ⟨s.pool.next + 3, []⟩ _ h0 (by omega)]
          simp only [copy_to_buffers_4ch_spec]
          refine ⟨_, _, _, _, rfl, rfl, rfl, rfl, ?_, ?_, ?_, ?_, ?_, hpool, ?_, ?_, ?_, ?_⟩
          · show ([] ++ streamL1 pdata).length = 0 + pdata.length
            simp [streamL1]
          · show ([] ++ streamR1 pdata).length = 0 + pdata.length
            simp [streamR1]
          · show ([] ++ streamL2 pdata).length = 0 + pdata.length
            simp [streamL2]
          · show ([] ++ streamR2 pdata).length = 0 + pdata.length
            simp [streamR2]
          · show 0 + pdata.length ≤ AUDIO_BLOCK_SAMPLES
            omega
          · show optData (some l1) ++ ([] ++ streamL1 pdata) = l1.data ++ streamL1 pdata
            simp [optData]
          · show optData (some r1) ++ ([] ++ streamR1 pdata) = r1.data ++ streamR1 pdata
            simp [optData]
          · show optData (some l2) ++ ([] ++ streamL2 pdata) = l2.data ++ streamL2 pdata
            simp [optData]
          · show optData (some r2) ++ ([] ++ streamR2 pdata) = r2.data ++ streamR2 pdata
            simp [optData]
        · have hpeq : pdata.length = AUDIO_BLOCK_SAMPLES := by omega
          have htk : pdata.take (AUDIO_BLOCK_SAMPLES - 0) = pdata :=
            List.take_of_length_le (by omega)
          rw [rcvLoopF_exact_overrun f2 pdata 0
            ⟨s.pool.next, []⟩ ⟨s.pool.next + 1, []⟩
            ⟨s.pool.next + 2, []⟩ ⟨s.pool.next + 3, []⟩
            { s with
              ready_left := some l1, ready_right := some r1,
              ready_left2 := some l2, ready_right2 := some r2,
              pool := ⟨s.pool.next + 4, s.pool.fails⟩,
              incoming_left := some ⟨s.pool.next, []⟩,
              incoming_right := some ⟨s.pool.next + 1, []⟩,
              incoming_left2 := some ⟨s.pool.next + 2, []⟩,
              incoming_right2 := some ⟨s.pool.next + 3, []⟩ }
            (by decide) (by omega) rfl]
          simp only [copy_to_buffers_4ch_spec]
          refine ⟨_, _, _, _, rfl, rfl, rfl, rfl, ?_, ?_, ?_, ?_, ?_, hpool, ?_, ?_, ?_, ?_⟩
          · show ([] ++ streamL1 (pdata.take (AUDIO_BLOCK_SAMPLES - 0))).length =
              0 + (AUDIO_BLOCK_SAMPLES - 0)
            rw [htk]; simp [streamL1]; omega
          · show ([] ++ streamR1 (pdata.take (AUDIO_BLOCK_SAMPLES - 0))).length =
              0 + (AUDIO_BLOCK_SAMPLES - 0)
            rw [htk]; simp [streamR1]; omega
          · show ([] ++ streamL2 (pdata.take (AUDIO_BLOCK_SAMPLES - 0))).length =
              0 + (AUDIO_BLOCK_SAMPLES - 0)
            rw [htk]; simp [streamL2]; omega
          · show ([] ++ streamR2 (pdata.take (AUDIO_BLOCK_SAMPLES - 0))).length =
              0 + (AUDIO_BLOCK_SAMPLES - 0)
            rw [htk]; simp [streamR2]; omega
          · show 0 + (AUDIO_BLOCK_SAMPLES - 0) ≤ AUDIO_BLOCK_SAMPLES
            omega
          · show optData (some l1) ++ ([] ++ streamL1 (pdata.take (AUDIO_BLOCK_SAMPLES - 0))) =
              l1.data ++ streamL1 pdata
            rw [htk]; simp [optData]
          · show optData (some r1) ++ ([] ++ streamR1 (pdata.take (AUDIO_BLOCK_SAMPLES - 0))) =
              r1.data ++ streamR1 pdata
            rw [htk]; simp [optData]
          · show optData (some l2) ++ ([] ++ streamL2 (pdata.take (AUDIO_BLOCK_SAMPLES - 0))) =
              l2.data ++ streamL2 pdata
            rw [htk]; simp [optData]
          · show optData (some r2) ++ ([] ++ streamR2 (pdata.take (AUDIO_BLOCK_SAMPLES - 0))) =
              r2.data ++ streamR2 pdata
            rw [htk]; simp [optData]

/-- Projections of AudioInputUSB::update: it clears the mailbox, hands the
four previously-ready blocks out as the drained quadruple, and leaves the
incoming slot set, its count and the pool untouched. -/
theorem AudioInputUSB_update_proj (s : RxS) :
    (AudioInputUSB_update s).1.ready_left = none ∧
    (AudioInputUSB_update s).1.ready_right = none ∧
    (AudioInputUSB_update s).1.ready_left2 = none ∧
    (AudioInputUSB_update s).1.ready_right2 = none ∧
    (AudioInputUSB_update s).1.incoming_left = s.incoming_left ∧
    (AudioInputUSB_update s).1.incoming_right = s.incoming_right ∧
    (AudioInputUSB_update s).1.incoming_left2 = s.incoming_left2 ∧
    (AudioInputUSB_update s).1.incoming_right2 = s.incoming_right2 ∧
    (AudioInputUSB_update s).1.incoming_count = s.incoming_count ∧
    (AudioInputUSB_update s).1.pool = s.pool ∧
    (AudioInputUSB_update s).2.1 = s.ready_left ∧
    (AudioInputUSB_update s).2.2.1 = s.ready_right ∧
    (AudioInputUSB_update s).2.2.2.1 = s.ready_left2 ∧
    (AudioInputUSB_update s).2.2.2.2 = s.ready_right2 :=
  ⟨rfl, rfl, rfl, rfl, rfl, rfl, rfl, rfl, rfl, rfl, rfl, rfl, rfl, rfl⟩

/-- One receive callback followed by one mailbox-draining update preserves
RxGood, and the samples drained plus the samples now sitting in the incoming
block extend the previously-buffered samples by exactly the packet's
de-interleaved channel streams. -/
theorem rcv_update_step (packet : List (Nat × Nat)) (s : RxS)
    (hg : RxGood s) (hp : packet.length ≤ AUDIO_BLOCK_SAMPLES) :
    RxGood (AudioInputUSB_update (usb_audio_receive_callback packet s)).1 ∧
    optData (AudioInputUSB_update (usb_audio_receive_callback packet s)).2.1 ++
      optData (AudioInputUSB_update (usb_audio_receive_callback packet s)).1.incoming_left =
      optData s.incoming_left ++ streamL1 packet ∧
    optData (AudioInputUSB_update (usb_audio_receive_callback packet s)).2.2.1 ++
      optData (AudioInputUSB_update (usb_audio_receive_callback packet s)).1.incoming_right =
      optData s.incoming_right ++ streamR1 packet ∧
    optData (AudioInputUSB_update (usb_audio_receive_callback packet s)).2.2.2.1 ++
      optData (AudioInputUSB_update (usb_audio_receive_callback packet s)).1.incoming_left2 =
      optData s.incoming_left2 ++ streamL2 packet ∧
    optData (AudioInputUSB_update (usb_audio_receive_callback packet s)).2.2.2.2 ++
      optData (AudioInputUSB_update (usb_audio_receive_callback packet s)).1.incoming_right2 =
      optData s.incoming_right2 ++ streamR2 packet := by
  obtain ⟨hy1, hy2, hy3, hy4, hpool, hinc⟩ := hg
  obtain ⟨p1, p2, p3, p4, p5, p6, p7, p8, p9, p10, p11, p12, p13, p14⟩ :=
    AudioInputUSB_update_proj (usb_audio_receive_callback packet s)
  rcases hinc with ⟨hn1, hn2, hn3, hn4, hc0⟩ |
    ⟨b1, b2, b3, b4, h1, h2, h3, h4, q1, q2, q3, q4, hcle⟩
  · have hrun := rcv_all_none packet s hn1 hn2 hn3 hn4 hpool
    obtain ⟨c1, c2, c3, c4, e1, e2, e3, e4, g1, g2, g3, g4, gle, gpool, k1, k2, k3, k4⟩ :=
      rcvLoop_good (packet.length + 2) packet s.incoming_count
        ⟨s.pool.next, []⟩ ⟨s.pool.next + 1, []⟩
        ⟨s.pool.next + 2, []⟩ ⟨s.pool.next + 3, []⟩
        { s with
          receive_flag := true,
          pool := ⟨s.pool.next + 4, s.pool.fails⟩,
          incoming_left := some ⟨s.pool.next, []⟩,
          incoming_right := some ⟨s.pool.next + 1, []⟩,
          incoming_left2 := some ⟨s.pool.next + 2, []⟩,
          incoming_right2 := some ⟨s.pool.next + 3, []⟩ }
        (by omega) (by simp [hc0]) (by simp [hc0]) (by simp [hc0]) (by simp [hc0])
        (by omega) hp hy1 hy2 hy3 hy4 hpool
    have e1' : (usb_audio_receive_callback packet s).incoming_left = some c1 := by
      rw [hrun]; exact e1
    have e2' : (usb_audio_receive_callback packet s).incoming_right = some c2 := by
      rw [hrun]; exact e2
    have e3' : (usb_audio_receive_callback packet s).incoming_left2 = some c3 := by
      rw [hrun]; exact e3
    have e4' : (usb_audio_receive_callback packet s).incoming_right2 = some c4 := by
      rw [hrun]; exact e4
    have g1' : c1.data.length = (usb_audio_receive_callback packet s).incoming_count := by
      rw [hrun]; exact g1
    have g2' : c2.data.length = (usb_audio_receive_callback packet s).incoming_count := by
      rw [hrun]; exact g2
    have g3' : c3.data.length = (usb_audio_receive_callback packet s).incoming_count := by
      rw [hrun]; exact g3
    have g4' : c4.data.length = (usb_audio_receive_callback packet s).incoming_count := by
      rw [hrun]; exact g4
    have gle' : (usb_audio_receive_callback packet s).incoming_count ≤ AUDIO_BLOCK_SAMPLES := by
      rw [hrun]; exact gle
    have gpool' : (usb_audio_receive_callback packet s).pool.fails = (fun _ => false) := by
      rw [hrun]; exact gpool
    have k1' : optData (usb_audio_receive_callback packet s).ready_left ++ c1.data =
        [] ++ streamL1 packet := by
      rw [hrun]; exact k1
    have k2' : optData (usb_audio_receive_callback packet s).ready_right ++ c2.data =
        [] ++ streamR1 packet := by
      rw [hrun]; exact k2
    have k3' : optData (usb_audio_receive_callback packet s).ready_left2 ++ c3.data =
        [] ++ streamL2 packet := by
      rw [hrun]; exact k3
    have k4' : optData (usb_audio_receive_callback packet s).ready_right2 ++ c4.data =
        [] ++ streamR2 packet := by
      rw [hrun]; exact k4
    refine ⟨⟨p1, p2, p3, p4, ?_,
      Or.inr ⟨c1, c2, c3, c4, ?_, ?_, ?_, ?_, ?_, ?_, ?_, ?_, ?_⟩⟩, ?_, ?_, ?_, ?_⟩
    · rw [p10]; exact gpool'
    · rw [p5]; exact e1'
    · rw [p6]; exact e2'
    · rw [p7]; exact e3'
    · rw [p8]; exact e4'
    · rw [p9]; exact g1'
    · rw [p9]; exact g2'
    · rw [p9]; exact g3'
    · rw [p9]; exact g4'
    · rw [p9]; exact gle'
    · rw [p11, p5, e1', hn1]
      show optData (usb_audio_receive_callback packet s).ready_left ++ c1.data =
        [] ++ streamL1 packet
      exact k1'
    · rw [p12, p6, e2', hn2]
      show optData (usb_audio_receive_callback packet s).ready_right ++ c2.data =
        [] ++ streamR1 packet
      exact k2'
    · rw [p13, p7, e3', hn3]
      show optData (usb_audio_receive_callback packet s).ready_left2 ++ c3.data =
        [] ++ streamL2 packet
      exact k3'
    · rw [p14, p8, e4', hn4]
      show optData (usb_audio_receive_callback packet s).ready_right2 ++ c4.data =
        [] ++ streamR2 packet
      exact k4'
  · have hrun := rcv_all_some packet s b1 b2 b3 b4 h1 h2 h3 h4
    obtain ⟨c1, c2, c3, c4, e1, e2, e3, e4, g1, g2, g3, g4, gle, gpool, k1, k2, k3, k4⟩ :=
      rcvLoop_good (packet.length + 2) packet s.incoming_count b1 b2 b3 b4
        { s with receive_flag := true }
        (by omega) q1 q2 q3 q4 hcle hp hy1 hy2 hy3 hy4 hpool
    have e1' : (usb_audio_receive_callback packet s).incoming_left = some c1 := by
      rw [hrun]; exact e1
    have e2' : (usb_audio_receive_callback packet s).incoming_right = some c2 := by
      rw [hrun]; exact e2
    have e3' : (usb_audio_receive_callback packet s).incoming_left2 = some c3 := by
      rw [hrun]; exact e3
    have e4' : (usb_audio_receive_callback packet s).incoming_right2 = some c4 := by
      rw [hrun]; exact e4
    have g1' : c1.data.length = (usb_audio_receive_callback packet s).incoming_count := by
      rw [hrun]; exact g1
    have g2' : c2.data.length = (usb_audio_receive_callback packet s).incoming_count := by
      rw [hrun]; exact g2
    have g3' : c3.data.length = (usb_audio_receive_callback packet s).incoming_count := by
      rw [hrun]; exact g3
    have g4' : c4.data.length = (usb_audio_receive_callback packet s).incoming_count := by
      rw [hrun]; exact g4
    have gle' : (usb_audio_receive_callback packet s).incoming_count ≤ AUDIO_BLOCK_SAMPLES := by
      rw [hrun]; exact gle
    have gpool' : (usb_audio_receive_callback packet s).pool.fails = (fun _ => false) := by
      rw [hrun]; exact gpool
    have k1' : optData (usb_audio_receive_callback packet s).ready_left ++ c1.data =
        b1.data ++ streamL1 packet := by
      rw [hrun]; exact k1
    have k2' : optData (usb_audio_receive_callback packet s).ready_right ++ c2.data =
        b2.data ++ streamR1 packet := by
      rw [hrun]; exact k2
    have k3' : optData (usb_audio_receive_callback packet s).ready_left2 ++ c3.data =
        b3.data ++ streamL2 packet := by
      rw [hrun]; exact k3
    have k4' : optData (usb_audio_receive_callback packet s).ready_right2 ++ c4.data =
        b4.data ++ streamR2 packet := by
      rw [hrun]; exact k4
    refine ⟨⟨p1, p2, p3, p4, ?_,
      Or.inr ⟨c1, c2, c3, c4, ?_, ?_, ?_, ?_, ?_, ?_, ?_, ?_, ?_⟩⟩, ?_, ?_, ?_, ?_⟩
    · rw [p10]; exact gpool'
    · rw [p5]; exact e1'
    · rw [p6]; exact e2'
    · rw [p7]; exact e3'
    · rw [p8]; exact e4'
    · rw [p9]; exact g1'
    · rw [p9]; exact g2'
    · rw [p9]; exact g3'
    · rw [p9]; exact g4'
    · rw [p9]; exact gle'
    · rw [p11, p5, e1', h1]
      show optData (usb_audio_receive_callback packet s).ready_left ++ c1.data =
        b1.data ++ streamL1 packet
      exact k1'
    · rw [p12, p6, e2', h2]
      show optData (usb_audio_receive_callback packet s).ready_right ++ c2.data =
        b2.data ++ streamR1 packet
      exact k2'
    · rw [p13, p7, e3', h3]
      show optData (usb_audio_receive_callback packet s).ready_left2 ++ c3.data =
        b3.data ++ streamL2 packet
      exact k3'
    · rw [p14, p8, e4', h4]
      show optData (usb_audio_receive_callback packet s).ready_right2 ++ c4.data =
        b4.data ++ streamR2 packet
      exact k4'

/-- Running any packet list from an RxGood state deposits, on each channel,
exactly the previously-buffered samples followed by that channel's
de-interleaved stream of the concatenated packets. -/
theorem runPackets_good :
    ∀ (packets : List (List (Nat × Nat))) (s : RxS), RxGood s →
      (∀ p ∈ packets, p.length ≤ AUDIO_BLOCK_SAMPLES) →
      depositedL1 (runPackets packets s) =
        optData s.incoming_left ++ streamL1 packets.flatten ∧
      depositedR1 (runPackets packets s) =
        optData s.incoming_right ++ streamR1 packets.flatten ∧
      depositedL2 (runPackets packets s) =
        optData s.incoming_left2 ++ streamL2 packets.flatten ∧
      depositedR2 (runPackets packets s) =
        optData s.incoming_right2 ++ streamR2 packets.flatten := by
  intro packets
  induction packets with
  | nil =>
      intro s _ _
      refine ⟨?_, ?_, ?_, ?_⟩ <;>
        simp [runPackets, depositedL1, depositedR1, depositedL2, depositedR2,
          drainedL1, drainedR1, drainedL2, drainedR2,
          streamL1, streamR1, streamL2, streamR2]
  | cons p rest ih =>
      intro s hg hb
      obtain ⟨hg', k1, k2, k3, k4⟩ := rcv_update_step p s hg (hb p (by simp))
      obtain ⟨m1, m2, m3, m4⟩ :=
        ih (AudioInputUSB_update (usb_audio_receive_callback p s)).1 hg'
          (fun q hq => hb q (by simp [hq]))
      refine ⟨?_, ?_, ?_, ?_⟩
      · have expand : depositedL1 (runPackets (p :: rest) s) =
            optData (AudioInputUSB_update (usb_audio_receive_callback p s)).2.1 ++
            depositedL1 (runPackets rest
              (AudioInputUSB_update (usb_audio_receive_callback p s)).1) := by
          simp [runPackets, depositedL1, drainedL1]
        rw [expand, m1, ← List.append_assoc, k1, List.append_assoc]
        simp [streamL1]
      · have expand : depositedR1 (runPackets (p :: rest) s) =
            optData (AudioInputUSB_update (usb_audio_receive_callback p s)).2.2.1 ++
            depositedR1 (runPackets rest
              (AudioInputUSB_update (usb_audio_receive_callback p s)).1) := by
          simp [runPackets, depositedR1, drainedR1]
        rw [expand, m2, ← List.append_assoc, k2, List.append_assoc]
        simp [streamR1]
      · have expand : depositedL2 (runPackets (p :: rest) s) =
            optData (AudioInputUSB_update (usb_audio_receive_callback p s)).2.2.2.1 ++
            depositedL2 (runPackets rest
              (AudioInputUSB_update (usb_audio_receive_callback p s)).1) := by
          simp [runPackets, depositedL2, drainedL2]
        rw [expand, m3, ← List.append_assoc, k3, List.append_assoc]
        simp [streamL2]
      · have expand : depositedR2 (runPackets (p :: rest) s) =
            optData (AudioInputUSB_update (usb_audio_receive_callback p s)).2.2.2.2 ++
            depositedR2 (runPackets rest
              (AudioInputUSB_update (usb_audio_receive_callback p s)).1) := by
          simp [runPackets, depositedR2, drainedR2]
        rw [expand, m4, ← List.append_assoc, k4, List.append_assoc]
        simp [streamR2]

/-- C7 (USB RX reassembly): starting from the post-begin state, delivering a
continuous interleaved 4-channel stream as any sequence of isochronous
packets of at most AUDIO_BLOCK_SAMPLES samples — one receive callback per
packet, the ready mailbox drained by AudioInputUSB::update after each —
deposits on every channel exactly the de-interleaved channel stream of the
concatenated packets; hence two partitions of the same stream produce
identical per-channel deposits, independent of where the packet boundaries
fall. -/
theorem c7_rx_reassembly (packets packets2 : List (List (Nat × Nat)))
    (hb : ∀ p ∈ packets, p.length ≤ AUDIO_BLOCK_SAMPLES)
    (hb2 : ∀ p ∈ packets2, p.length ≤ AUDIO_BLOCK_SAMPLES)
    (hsame : packets.flatten = packets2.flatten) :
    depositedL1 (runPackets packets rxInit) = streamL1 packets.flatten ∧
    depositedR1 (runPackets packets rxInit) = streamR1 packets.flatten ∧
    depositedL2 (runPackets packets rxInit) = streamL2 packets.flatten ∧
    depositedR2 (runPackets packets rxInit) = streamR2 packets.flatten ∧
    depositedL1 (runPackets packets rxInit) = depositedL1 (runPackets packets2 rxInit) ∧
    depositedR1 (runPackets packets rxInit) = depositedR1 (runPackets packets2 rxInit) ∧
    depositedL2 (runPackets packets rxInit) = depositedL2 (runPackets packets2 rxInit) ∧
    depositedR2 (runPackets packets rxInit) = depositedR2 (runPackets packets2 rxInit) := by
  have hgood : RxGood rxInit :=
    ⟨rfl, rfl, rfl, rfl, rfl, Or.inl ⟨rfl, rfl, rfl, rfl, rfl⟩⟩
  obtain ⟨m1, m2, m3, m4⟩ := runPackets_good packets rxInit hgood hb
  obtain ⟨n1, n2, n3, n4⟩ := runPackets_good packets2 rxInit hgood hb2
  rw [m1, m2, m3, m4, n1, n2, n3, n4, hsame]
  show ([] : List Nat) ++ _ = _ ∧ ([] : List Nat) ++ _ = _ ∧
    ([] : List Nat) ++ _ = _ ∧ ([] : List Nat) ++ _ = _ ∧ _
  simp

/-- Witness for C7: the stream (1,2),(3,4),(5,6) split as [2,1] samples and
as [1,2] samples satisfies the bounds and yields identical left1 deposits. -/
theorem c7_rx_reassembly_witness :
    (∀ p ∈ [[((1:Nat), (2:Nat)), (3, 4)], [(5, 6)]], p.length ≤ AUDIO_BLOCK_SAMPLES) ∧
    (∀ p ∈ [[((1:Nat), (2:Nat))], [(3, 4), (5, 6)]], p.length ≤ AUDIO_BLOCK_SAMPLES) ∧
    ([[((1:Nat), (2:Nat)), (3, 4)], [(5, 6)]].flatten =
      [[((1:Nat), (2:Nat))], [(3, 4), (5, 6)]].flatten) ∧
    depositedL1 (runPackets [[((1:Nat), (2:Nat)), (3, 4)], [(5, 6)]] rxInit) =
      depositedL1 (runPackets [[((1:Nat), (2:Nat))], [(3, 4), (5, 6)]] rxInit) :=
  ⟨by decide, by decide, by decide,
    (c7_rx_reassembly [[((1:Nat), (2:Nat)), (3, 4)], [(5, 6)]]
      [[((1:Nat), (2:Nat))], [(3, 4), (5, 6)]]
      (by decide) (by decide) (by decide)).2.2.2.2.1⟩
